import Mathlib

/-!
Verification development for the touch-stream engine of LatinIME
(`native/jni/src/proximity_info_state.cpp`).

Modelling conventions used throughout this file:

* C++ `float` values are modelled as exact rationals (`ℚ`).  The claims under
  study are about comparisons, clamping and data flow of these values, not
  about IEEE rounding, so the exact-arithmetic model is adequate and keeps
  every definition executable.
* The geometry provider (`ProximityInfo`) is an external read-only
  collaborator; it is modelled as a structure of abstract functions.
* Helper routines that live in other translation units of the repository
  (`ProximityInfoStateUtils`, `ProximityInfoUtils`, `toBaseLowerCase`,
  `isSkippableCodePoint`) are not part of the analysed source file; they are
  either abstract function parameters or, where a claim needs their contract,
  definitions marked `Modelled from the spec:`.
* C arrays indexed out of range are modelled with `List.getD` and a default
  value; the claims never depend on such accesses.
* Bitsets over key ids (`std::bitset`) are modelled as `Finset ℕ`.
-/

namespace latinime

/-- Modelled from the spec: fixed maximum word length (`MAX_WORD_LENGTH` of
`defines.h`, which is not part of the analysed source).  The claims do not
depend on its exact value. -/
def MAX_WORD_LENGTH : Nat := 48

/-- Modelled from the spec: fixed capacity of a per-point proximity code-point
list (`MAX_PROXIMITY_CHARS_SIZE` of `defines.h`). -/
def MAX_PROXIMITY_CHARS_SIZE : Nat := 16

/-- Modelled from the spec: the in-band delimiter marker separating the near
tier from the additional tier of a proximity list
(`ADDITIONAL_PROXIMITY_CHAR_DELIMITER_CODE` of `defines.h`).  Real code points
are greater than this value and the zero padding of the fixed-capacity list is
smaller than it. -/
def ADDITIONAL_PROXIMITY_CHAR_DELIMITER_CODE : Int := 2

/-- Sentinel for "no such key index" (`NOT_AN_INDEX` of `defines.h`). -/
def NOT_AN_INDEX : Int := -1

/-- Sentinel coordinate (`NOT_A_COORDINATE` of `defines.h`). -/
def NOT_A_COORDINATE : Int := -1

/-- Sentinel distance (`NOT_A_DISTANCE` of `defines.h`); the C++ code memsets
the squared-distance buffer with it. -/
def NOT_A_DISTANCE : Int := -1

/-- Modelled from the spec: the fixed maximum point-to-key length
(`MAX_POINT_TO_KEY_LENGTH` of `defines.h`), returned for a code point that has
no key and is not skippable. -/
def MAX_POINT_TO_KEY_LENGTH : ℚ := 10000000

/-- Modelled from the spec: sentinel stored for the primary proximity char when
no sweet-spot distance is available (`defines.h`).  Claims only need it to be a
fixed constant. -/
def EQUIVALENT_CHAR_WITHOUT_DISTANCE_INFO : Int := 0

/-- Modelled from the spec: sentinel stored for a non-primary proximity char
when no sweet-spot distance is available (`defines.h`). -/
def PROXIMITY_CHAR_WITHOUT_DISTANCE_INFO : Int := 1

/-- `ProximityInfoState::NORMALIZED_SQUARED_DISTANCE_SCALING_FACTOR_LOG_2`. -/
def NORMALIZED_SQUARED_DISTANCE_SCALING_FACTOR_LOG_2 : Nat := 10

/-- `ProximityInfoState::NORMALIZED_SQUARED_DISTANCE_SCALING_FACTOR`
(`1 << NORMALIZED_SQUARED_DISTANCE_SCALING_FACTOR_LOG_2`). -/
def NORMALIZED_SQUARED_DISTANCE_SCALING_FACTOR : Int :=
  2 ^ NORMALIZED_SQUARED_DISTANCE_SCALING_FACTOR_LOG_2

/-- `ProximityInfoState::NOT_A_DISTANCE_FLOAT`. -/
def NOT_A_DISTANCE_FLOAT : ℚ := -1

/-- The near-key threshold constant of `initInputParams`
(`NEAR_KEY_NORMALIZED_SQUARED_THRESHOLD = 4.0f`). -/
def NEAR_KEY_NORMALIZED_SQUARED_THRESHOLD : ℚ := 4

/-- The constant `DEMOTION_LOG_PROBABILITY = 0.3f` of `getMostProbableString`. -/
def DEMOTION_LOG_PROBABILITY : ℚ := 3 / 10

/-- Truncation toward zero of a rational number; this is the semantics of C's
`static_cast<int>` applied to a (non-NaN, in-range) floating value. -/
def ratTruncToInt (q : ℚ) : Int := q.num.tdiv (q.den : Int)

/-- The classification returned by the proximity character matcher
(enum `ProximityType` of `defines.h`). -/
inductive ProximityType where
  | EQUIVALENT_CHAR
  | NEAR_PROXIMITY_CHAR
  | ADDITIONAL_PROXIMITY_CHAR
  | UNRELATED_CHAR
deriving DecidableEq

/-- The external geometry provider (`ProximityInfo`), consumed through a
read-only capability interface: key geometry, code-point/key-id lookup,
sweet-spot data and proximity lists.  All members are abstract. -/
structure ProximityInfo where
  keyCount : Nat
  getMostCommonKeyWidth : Int
  getMostCommonKeyWidthSquare : Int
  getCellHeight : Int
  getCellWidth : Int
  getGridWidth : Int
  getGridHeight : Int
  getKeyboardWidth : Int
  getKeyboardHeight : Int
  hasTouchPositionCorrectionData : Bool
  getNormalizedSquaredDistanceFromCenterFloatG : Nat → Int → Int → ℚ
  getKeyIndexOf : Int → Int
  getCodePointOf : Int → Int
  getKeyCenterXOfKeyIdG : Int → Int
  getKeyCenterYOfKeyIdG : Int → Int
  hasSweetSpotData : Int → Bool
  getSweetSpotCenterXAt : Int → ℚ
  getSweetSpotCenterYAt : Int → ℚ
  getSweetSpotRadiiAt : Int → ℚ
  initProximities : List Int → List Int → List Int → Nat → List Int
  hasSpaceProximity : Int → Int → Bool

/-- The per-session mutable state of `ProximityInfoState`.  Parallel vectors
are lists, the dense distance cache is a flat list indexed by
`point * keyCount + key`, bitsets over keys are `Finset ℕ`, and each per-point
probability distribution (a `hash_map_compat<int, float>`) is an association
list from key index (or `NOT_AN_INDEX`, the skip entry) to a log-probability
value. -/
structure PIState where
  mHasTouchPositionCorrectionData : Bool
  mMostCommonKeyWidthSquare : Int
  mKeyCount : Nat
  mCellHeight : Int
  mCellWidth : Int
  mGridHeight : Int
  mGridWidth : Int
  mInputProximities : List Int
  mMaxPointToKeyLength : ℚ
  mSampledInputXs : List Int
  mSampledInputYs : List Int
  mTimes : List Int
  mLengthCache : List Int
  mInputIndice : List Int
  mDistanceCache_G : List ℚ
  mNearKeysVector : List (Finset ℕ)
  mSearchKeysVector : List (Finset ℕ)
  mSpeedRates : List ℚ
  mDirections : List ℚ
  mBeelineSpeedPercentiles : List Int
  mCharProbabilities : List (List (Int × ℚ))
  mSampledInputSize : Nat
  mAverageSpeed : ℚ
  mNormalizedSquaredDistances : List Int
  mPrimaryInputWord : List Int
  mTouchPositionCorrectionEnabled : Bool
  mIsContinuationPossible : Bool
deriving DecidableEq

/-- A freshly constructed session: every buffer empty / zeroed, as produced by
the `ProximityInfoState` constructor before the first `initInputParams` call. -/
def PIState.empty : PIState where
  mHasTouchPositionCorrectionData := false
  mMostCommonKeyWidthSquare := 0
  mKeyCount := 0
  mCellHeight := 0
  mCellWidth := 0
  mGridHeight := 0
  mGridWidth := 0
  mInputProximities := []
  mMaxPointToKeyLength := 0
  mSampledInputXs := []
  mSampledInputYs := []
  mTimes := []
  mLengthCache := []
  mInputIndice := []
  mDistanceCache_G := []
  mNearKeysVector := []
  mSearchKeysVector := []
  mSpeedRates := []
  mDirections := []
  mBeelineSpeedPercentiles := []
  mCharProbabilities := []
  mSampledInputSize := 0
  mAverageSpeed := 0
  mNormalizedSquaredDistances := []
  mPrimaryInputWord := []
  mTouchPositionCorrectionEnabled := false
  mIsContinuationPossible := false

/-- `ProximityInfoState::checkAndReturnIsContinuationPossible` (lines 242-266).
In gesture mode every previously sampled point must replay identically at its
stored original index; in tap mode the new input must be at least as long as
the previous sampled size and the first `min(sampledSize, MAX_WORD_LENGTH)`
coordinates must match exactly.  The loops return `false` at the first
mismatch, which over a pure predicate is `List.all`. -/
def PIState.checkAndReturnIsContinuationPossible (st : PIState) (inputSize : Nat)
    (xCoordinates yCoordinates times : List Int) (isGeometric : Bool) : Bool :=
  if isGeometric then
    (List.range st.mSampledInputSize).all fun i =>
      let index := st.mInputIndice.getD i 0
      !(decide (index > (inputSize : Int))
        || xCoordinates.getD index.toNat 0 != st.mSampledInputXs.getD i 0
        || yCoordinates.getD index.toNat 0 != st.mSampledInputYs.getD i 0
        || times.getD index.toNat 0 != st.mTimes.getD i 0)
  else
    if (inputSize : Int) < (st.mSampledInputSize : Int) then false
    else
      (List.range (min st.mSampledInputSize MAX_WORD_LENGTH)).all fun i =>
        xCoordinates.getD i 0 == st.mSampledInputXs.getD i 0
          && yCoordinates.getD i 0 == st.mSampledInputYs.getD i 0

/-- `ProximityInfoState::getDuration` (lines 285-290). -/
def PIState.getDuration (st : PIState) (index : Int) : Int :=
  if 0 ≤ index ∧ index < (st.mSampledInputSize : Int) - 1 then
    st.mTimes.getD (index + 1).toNat 0 - st.mTimes.getD index.toNat 0
  else 0

/-- `ProximityInfoState::getPointToKeyLength` (lines 295-307).  The helper
`isSkippableCodePoint` lives in a header outside the analysed source, so it is
an abstract predicate parameter. -/
def PIState.getPointToKeyLength (st : PIState) (pI : ProximityInfo)
    (isSkippableCodePoint : Int → Bool) (inputIndex : Nat) (codePoint : Int)
    (scale : ℚ) : ℚ :=
  let keyId := pI.getKeyIndexOf codePoint
  if keyId ≠ NOT_AN_INDEX then
    let index := inputIndex * pI.keyCount + keyId.toNat
    min (st.mDistanceCache_G.getD index 0 * scale) st.mMaxPointToKeyLength
  else if isSkippableCodePoint codePoint then 0
  else MAX_POINT_TO_KEY_LENGTH

/-- `ProximityInfoState::getPointToKeyLength_G` (lines 309-311). -/
def PIState.getPointToKeyLength_G (st : PIState) (pI : ProximityInfo)
    (isSkippableCodePoint : Int → Bool) (inputIndex : Nat) (codePoint : Int) : ℚ :=
  st.getPointToKeyLength pI isSkippableCodePoint inputIndex codePoint 1

/-- `ProximityInfoState::getLineToKeyDistance` (lines 443-461).
`pointToLineSegSquaredDistanceFloat` is an external geometric utility
(`ProximityInfoUtils`, outside the analysed source), passed abstractly. -/
def PIState.getLineToKeyDistance (st : PIState) (pI : ProximityInfo)
    (pointToLineSegSquaredDistanceFloat : Int → Int → Int → Int → Int → Int → Bool → ℚ)
    (fromIdx toIdx : Int) (keyId : Int) (extend : Bool) : ℚ :=
  if fromIdx < 0 ∨ fromIdx > (st.mSampledInputSize : Int) - 1 then 0
  else if toIdx < 0 ∨ toIdx > (st.mSampledInputSize : Int) - 1 then 0
  else
    let x0 := st.mSampledInputXs.getD fromIdx.toNat 0
    let y0 := st.mSampledInputYs.getD fromIdx.toNat 0
    let x1 := st.mSampledInputXs.getD toIdx.toNat 0
    let y1 := st.mSampledInputYs.getD toIdx.toNat 0
    let keyX := pI.getKeyCenterXOfKeyIdG keyId
    let keyY := pI.getKeyCenterYOfKeyIdG keyId
    pointToLineSegSquaredDistanceFloat keyX keyY x0 y0 x1 y1 extend

/-- `ProximityInfoState::getAllPossibleChars` (lines 400-425).  Appends to the
filter the code point of every search key of the point that is not already in
the incoming filter; note the C++ duplicate check runs only over the first
`filterSize` (incoming) entries. -/
def PIState.getAllPossibleChars (st : PIState) (pI : ProximityInfo)
    (index : Nat) (filter : List Int) : List Int :=
  if index ≥ st.mSampledInputXs.length then filter
  else
    filter ++ (List.range pI.keyCount).filterMap fun j =>
      if j ∈ st.mSearchKeysVector.getD index ∅ ∧ pI.getCodePointOf (j : Int) ∉ filter
      then some (pI.getCodePointOf (j : Int)) else none

/-- The second scan of `getMatchedProximityId` (lines 370-380): past the
delimiter, any exact or base-lowercased match is an additional proximity
char.  The remaining entries of the fixed-size array are passed as a list
(the loop guard `j < MAX_PROXIMITY_CHARS_SIZE` is the end of that list) and
`j` tracks the original array position reported through `proximityIndex`. -/
def additionalProximityScan (baseLowerC c : Int) :
    List Int → Nat → ProximityType × Option Nat
  | [], _ => (ProximityType.UNRELATED_CHAR, none)
  | x :: rest, j =>
    if x > ADDITIONAL_PROXIMITY_CHAR_DELIMITER_CODE then
      if x = baseLowerC ∨ x = c then (ProximityType.ADDITIONAL_PROXIMITY_CHAR, some j)
      else additionalProximityScan baseLowerC c rest (j + 1)
    else (ProximityType.UNRELATED_CHAR, none)

/-- The first scan of `getMatchedProximityId` (lines 355-381): positions
`1 ..` up to the delimiter are near proximity chars; if the delimiter is hit
the scan continues in the additional tier, otherwise the character is
unrelated. -/
def nearProximityScan (baseLowerC c : Int) :
    List Int → Nat → ProximityType × Option Nat
  | [], _ => (ProximityType.UNRELATED_CHAR, none)
  | x :: rest, j =>
    if x > ADDITIONAL_PROXIMITY_CHAR_DELIMITER_CODE then
      if x = baseLowerC ∨ x = c then (ProximityType.NEAR_PROXIMITY_CHAR, some j)
      else nearProximityScan baseLowerC c rest (j + 1)
    else if x = ADDITIONAL_PROXIMITY_CHAR_DELIMITER_CODE then
      additionalProximityScan baseLowerC c rest (j + 1)
    else (ProximityType.UNRELATED_CHAR, none)

/-- `ProximityInfoState::getMatchedProximityId` (lines 334-384) over the
proximity code-point list of one sampled point, given as the
`MAX_PROXIMITY_CHARS_SIZE`-entry array contents.  `toBaseLowerCase` (from
`char_utils`, outside the analysed source) is an abstract parameter.  The
returned `Option Nat` is the `proximityIndex` out-parameter, written only by
the two scans. -/
def getMatchedProximityIdCore (toBaseLowerCase : Int → Int)
    (codePoints : List Int) (c : Int) (checkProximityChars : Bool) :
    ProximityType × Option Nat :=
  let firstCodePoint := codePoints.getD 0 0
  let baseLowerC := toBaseLowerCase c
  if firstCodePoint = baseLowerC ∨ firstCodePoint = c then
    (ProximityType.EQUIVALENT_CHAR, none)
  else if !checkProximityChars then (ProximityType.UNRELATED_CHAR, none)
  else if toBaseLowerCase firstCodePoint = baseLowerC then
    (ProximityType.NEAR_PROXIMITY_CHAR, none)
  else nearProximityScan baseLowerC c (codePoints.drop 1) 1

/-- The proximity code-point list of sampled point `index`
(`getProximityCodePointsAt`, a header accessor over `mInputProximities`;
modelled from the spec: the flat buffer holds `MAX_PROXIMITY_CHARS_SIZE`
entries per point, primary character first). -/
def PIState.getProximityCodePointsAt (st : PIState) (index : Nat) : List Int :=
  (List.range MAX_PROXIMITY_CHARS_SIZE).map fun j =>
    st.mInputProximities.getD (index * MAX_PROXIMITY_CHARS_SIZE + j) 0

/-- `getMatchedProximityId` as a query on the session state. -/
def PIState.getMatchedProximityId (st : PIState) (toBaseLowerCase : Int → Int)
    (index : Nat) (c : Int) (checkProximityChars : Bool) :
    ProximityType × Option Nat :=
  getMatchedProximityIdCore toBaseLowerCase (st.getProximityCodePointsAt index) c
    checkProximityChars

/-- The per-entry adjustment of `getMostProbableString` (lines 475-476): an
entry that is a real key (not the `NOT_AN_INDEX` skip entry) has
`DEMOTION_LOG_PROBABILITY` added to its value before comparison. -/
def adjustedLogProbability (e : Int × ℚ) : ℚ :=
  if e.1 ≠ NOT_AN_INDEX then e.2 + DEMOTION_LOG_PROBABILITY else e.2

/-- The body of the inner loop of `getMostProbableString` (lines 473-481):
keep the entry with the least adjusted value seen so far. -/
def selectStep (acc : ℚ × Int) (e : Int × ℚ) : ℚ × Int :=
  let logProbability := adjustedLogProbability e
  if logProbability < acc.1 then (logProbability, e.1) else acc

/-- The inner loop of `getMostProbableString` (lines 471-481): scan one
point's distribution keeping the least adjusted value seen so far (starting
from `MAX_POINT_TO_KEY_LENGTH` with no character). -/
def selectMostProbableEntry (d : List (Int × ℚ)) : ℚ × Int :=
  d.foldl selectStep (MAX_POINT_TO_KEY_LENGTH, NOT_AN_INDEX)

/-- The loop of `ProximityInfoState::getMostProbableString` (lines 465-490)
over the per-point distributions, with `index` the number of characters
already emitted (the loop guard is `index < MAX_WORD_LENGTH - 1`).  Returns
the decoded code points and the accumulated minimum log-probabilities. -/
def getMostProbableStringAux (pI : ProximityInfo) :
    List (List (Int × ℚ)) → Nat → List Int × ℚ
  | [], _ => ([], 0)
  | d :: rest, index =>
    if index < MAX_WORD_LENGTH - 1 then
      let sel := selectMostProbableEntry d
      if sel.2 ≠ NOT_AN_INDEX then
        let r := getMostProbableStringAux pI rest (index + 1)
        (pI.getCodePointOf sel.2 :: r.1, sel.1 + r.2)
      else
        let r := getMostProbableStringAux pI rest index
        (r.1, sel.1 + r.2)
    else ([], 0)

/-- `ProximityInfoState::getMostProbableString` (lines 465-490); the C++ loop
runs `i` from `0` to `mSampledInputSize`, indexing `mCharProbabilities[i]`. -/
def PIState.getMostProbableString (st : PIState) (pI : ProximityInfo) :
    List Int × ℚ :=
  getMostProbableStringAux pI (st.mCharProbabilities.take st.mSampledInputSize) 0

/-- The five parallel sampled-touch sequences threaded through the resampler
(`mSampledInputXs/Ys`, `mTimes`, `mLengthCache`, `mInputIndice`). -/
structure SampledTouchData where
  xs : List Int
  ys : List Int
  times : List Int
  lengthCache : List Int
  inputIndice : List Int
deriving DecidableEq

/-- The data visible to the alignment-probability model for one sampled point:
per the spec (§4.4) an entry depends on the cached distances and near keys of
the point, its local relative speed, the session parameters, and the previous
point's distribution. -/
structure AlignPointContext where
  maxPointToKeyLength : ℚ
  mostCommonKeyWidth : Int
  keyCount : Nat
  x : Int
  y : Int
  speedRate : ℚ
  lengthCacheAt : Int
  distRow : List ℚ
  nearRow : Finset ℕ
deriving DecidableEq

/-- Abstract models of the helpers of `ProximityInfoStateUtils` and
`ProximityInfoUtils` that `initInputParams` delegates to.  These live in other
translation units of the repository; the spec (§4.1, §4.3) treats them as
black boxes, so they are fields of this record.  `alignStep` is the per-point
transition of the alignment-probability model (§4.4); `hypotf` models the C
math-library function. -/
structure StateUtils where
  updateTouchPoints : Int → ProximityInfo → ℚ → List Int → List Int → List Int →
    List Int → List Int → Nat → Bool → Int → Int → SampledTouchData → SampledTouchData
  refreshSpeedRates : Nat → List Int → List Int → List Int → Nat → Nat →
    SampledTouchData → List ℚ → List ℚ → ℚ × List ℚ × List ℚ
  refreshBeelineSpeedRates : Int → ℚ → Nat → List Int → List Int → List Int →
    Nat → SampledTouchData → List Int → List Int
  alignStep : AlignPointContext → List (Int × ℚ) → List (Int × ℚ)
  hypotf : Int → Int → ℚ

/-- Value of `static_cast<int>(hypotf(w, h) * READ_FORWORD_LENGTH_SCALE)`
(lines 147-150) with `READ_FORWORD_LENGTH_SCALE = 0.95 = 19/20`, computed on
the exact rational `h` returned by the `hypotf` model: truncation toward zero
of `19 * h / 20`, expressed directly on the numerator and denominator so that
it is kernel-evaluable. -/
def readForwordLength (h : ℚ) : Int := (19 * h.num).tdiv (20 * (h.den : Int))

/-- Modelled from the spec: `ProximityInfoStateUtils::popInputData` (outside
the analysed source), described in §9 as a truncation operation dropping the
last element of the five parallel sampled sequences. -/
def PIState.popInputData (st : PIState) : PIState :=
  { st with
    mSampledInputXs := st.mSampledInputXs.dropLast
    mSampledInputYs := st.mSampledInputYs.dropLast
    mTimes := st.mTimes.dropLast
    mLengthCache := st.mLengthCache.dropLast
    mInputIndice := st.mInputIndice.dropLast }

/-- The clear-all-data branch of `initInputParams` (lines 71-85): the twelve
per-session vectors are cleared; scalar members are left for the subsequent
recomputation. -/
def PIState.clearSampledBuffers (st : PIState) : PIState :=
  { st with
    mSampledInputXs := []
    mSampledInputYs := []
    mTimes := []
    mInputIndice := []
    mLengthCache := []
    mDistanceCache_G := []
    mNearKeysVector := []
    mSearchKeysVector := []
    mSpeedRates := []
    mBeelineSpeedPercentiles := []
    mCharProbabilities := []
    mDirections := [] }

/-- The distance-cache update of `initInputParams` (lines 122-133):
`mDistanceCache_G.resize(size * keyCount)` (prefix kept, zero padding)
followed by overwriting every flat entry `i * keyCount + k` with
`i ∈ [lastSaved, size)` with the normalized squared distance from point `i`
to key `k`.  Written as one map over the flat index range. -/
def buildDistanceCache (base : List ℚ) (pI : ProximityInfo) (keyCount : Nat)
    (lastSaved size : Nat) (xs ys : List Int) : List ℚ :=
  (List.range (size * keyCount)).map fun idx =>
    if idx < lastSaved * keyCount then base.getD idx 0
    else
      pI.getNormalizedSquaredDistanceFromCenterFloatG (idx % keyCount)
        (xs.getD (idx / keyCount) 0) (ys.getD (idx / keyCount) 0)

/-- The near-key update of `initInputParams` (lines 120, 124, 126-136):
`mNearKeysVector.resize(size)` keeping the prefix, then for every new point
the bitset is reset and key `k` is set iff its normalized squared distance is
strictly below `NEAR_KEY_NORMALIZED_SQUARED_THRESHOLD`. -/
def buildNearKeysVector (base : List (Finset ℕ)) (pI : ProximityInfo)
    (keyCount : Nat) (lastSaved size : Nat) (xs ys : List Int) :
    List (Finset ℕ) :=
  (List.range size).map fun i =>
    if i < lastSaved then base.getD i ∅
    else
      (Finset.range keyCount).filter fun k =>
        pI.getNormalizedSquaredDistanceFromCenterFloatG k (xs.getD i 0) (ys.getD i 0)
          < NEAR_KEY_NORMALIZED_SQUARED_THRESHOLD

/-- The search-key resize/reset of `initInputParams` (lines 121, 125):
`mSearchKeysVector.resize(size)` keeping the prefix, and the bitsets of the
new points `i ∈ [lastSaved, size)` reset. -/
def buildSearchMid (base : List (Finset ℕ)) (lastSaved size : Nat) :
    List (Finset ℕ) :=
  (List.range size).map fun i => if i < lastSaved then base.getD i ∅ else ∅

/-- The inner scan of the search-key loop (lines 155-160): starting from some
position, accumulate the near-key sets of successive points, stopping at the
first point whose cumulative length exceeds the look-ahead bound (the C++
`break`). -/
def scanUnion (lcI : Int) (bound : Int) : List (Int × Finset ℕ) → Finset ℕ
  | [] => ∅
  | p :: rest => if p.1 - lcI ≥ bound then ∅ else p.2 ∪ scanUnion lcI bound rest

/-- The search-key union loop of `initInputParams` (lines 151-161, gesture
mode): for every point `i`, reset its set if `i ≥ lastSaved`, then OR in the
near-key sets of the points `j ∈ [max i lastSaved, size)` whose length delta
stays below `readForwordLength`, with early exit at the first offender. -/
def buildSearchKeysVector (mid near : List (Finset ℕ)) (lengthCache : List Int)
    (lastSaved size : Nat) (bound : Int) : List (Finset ℕ) :=
  (List.range size).map fun i =>
    let start := max i lastSaved
    let pairs := (List.range' start (size - start)).map fun j =>
      (lengthCache.getD j 0, near.getD j ∅)
    (if lastSaved ≤ i then ∅ else mid.getD i ∅)
      ∪ scanUnion (lengthCache.getD i 0) bound pairs

/-- The per-point data handed to the alignment-probability step for point `i`
of the given sampled arrays. -/
def alignCtx (maxPtk : ℚ) (mckw : Int) (keyCount : Nat)
    (sampledXs sampledYs lengthCache : List Int) (speedRates : List ℚ)
    (dist : List ℚ) (near : List (Finset ℕ)) : Nat → AlignPointContext := fun i =>
  { maxPointToKeyLength := maxPtk
    mostCommonKeyWidth := mckw
    keyCount := keyCount
    x := sampledXs.getD i 0
    y := sampledYs.getD i 0
    speedRate := speedRates.getD i 0
    lengthCacheAt := lengthCache.getD i 0
    distRow := (List.range keyCount).map fun k => dist.getD (i * keyCount + k) 0
    nearRow := near.getD i ∅ }

/-- The chain of per-point alignment-probability computations: entry `i` is
`step` applied to the data of point `i` and the previous point's entry.  The
fuel is the number of entries still to produce. -/
def alignFold (step : AlignPointContext → List (Int × ℚ) → List (Int × ℚ))
    (ctx : Nat → AlignPointContext) :
    Nat → Nat → List (Int × ℚ) → List (List (Int × ℚ))
  | _, 0, _ => []
  | i, fuel + 1, prev =>
    step (ctx i) prev :: alignFold step ctx (i + 1) fuel (step (ctx i) prev)

/-- Modelled from the spec:
`ProximityInfoStateUtils::updateAlignPointProbabilities` (outside the analysed
source).  Per §4.4 the model is append-only — entries below
`lastSavedInputSize` are never recomputed — and each new entry is a function
of the point's own cached data and the previous point's distribution.  The
per-point function itself is the abstract `step`. -/
def updateAlignPointProbabilities
    (step : AlignPointContext → List (Int × ℚ) → List (Int × ℚ))
    (lastSaved size : Nat) (ctx : Nat → AlignPointContext)
    (old : List (List (Int × ℚ))) : List (List (Int × ℚ)) :=
  let kept := old.take lastSaved
  kept ++ alignFold step ctx lastSaved (size - lastSaved) (kept.getLastD [])

/-- `ProximityInfoState::calculateNormalizedSquaredDistance` (lines 268-283). -/
def calculateNormalizedSquaredDistance (pI : ProximityInfo)
    (sampledXs sampledYs : List Int) (keyIndex : Int) (inputIndex : Nat) : ℚ :=
  if keyIndex = NOT_AN_INDEX then NOT_A_DISTANCE_FLOAT
  else if !pI.hasSweetSpotData keyIndex then NOT_A_DISTANCE_FLOAT
  else if NOT_A_COORDINATE = sampledXs.getD inputIndex 0 then NOT_A_DISTANCE_FLOAT
  else
    let inputX : ℚ := (sampledXs.getD inputIndex 0 : ℚ)
    let inputY : ℚ := (sampledYs.getD inputIndex 0 : ℚ)
    let squaredDistance := (inputX - pI.getSweetSpotCenterXAt keyIndex) ^ 2
      + (inputY - pI.getSweetSpotCenterYAt keyIndex) ^ 2
    squaredDistance / (pI.getSweetSpotRadiiAt keyIndex) ^ 2

/-- The sweet-spot distance table fill of `initInputParams` (lines 196,
205-234): the flat `MAX_WORD_LENGTH × MAX_PROXIMITY_CHARS_SIZE` buffer is
memset to `NOT_A_DISTANCE`, then for every sampled point `i` (while touch
position correction is enabled) and every leading run of positive proximity
code points `j`, the scaled sweet-spot distance or a sentinel is stored.
`hasInputCoordinates()` is modelled as true (coordinate streams are given). -/
def computeNormalizedSquaredDistances (pI : ProximityInfo)
    (inputProximities sampledXs sampledYs : List Int) (size : Nat)
    (enabled : Bool) : List Int :=
  (List.range (MAX_WORD_LENGTH * MAX_PROXIMITY_CHARS_SIZE)).map fun idx =>
    let i := idx / MAX_PROXIMITY_CHARS_SIZE
    let j := idx % MAX_PROXIMITY_CHARS_SIZE
    let cp := fun j2 => inputProximities.getD (i * MAX_PROXIMITY_CHARS_SIZE + j2) 0
    if enabled ∧ i < size ∧ ((List.range (j + 1)).all fun j2 => cp j2 > 0) then
      let squaredDistance :=
        calculateNormalizedSquaredDistance pI sampledXs sampledYs
          (pI.getKeyIndexOf (cp j)) i
      if squaredDistance ≥ 0 then
        ratTruncToInt (squaredDistance * (NORMALIZED_SQUARED_DISTANCE_SCALING_FACTOR : ℚ))
      else if j = 0 then EQUIVALENT_CHAR_WITHOUT_DISTANCE_INFO
      else PROXIMITY_CHAR_WITHOUT_DISTANCE_INFO
    else NOT_A_DISTANCE

/-- The tail of `initInputParams` (lines 100-235) once the resampler has
produced the updated parallel arrays `arrs` and `mInputProximities` has been
initialized: kinematic features, distance cache, near/search key sets,
alignment probabilities and the tap-mode sweet-spot table are recomputed from
the inputs.  The C++ null checks on the coordinate streams are modelled as
always passing (streams are lists). -/
def initWithTouchPoints (utils : StateUtils) (arrs : SampledTouchData)
    (mInputProximities : List Int) (lastSavedInputSize : Nat) (base : PIState)
    (contPossible : Bool) (pointerId : Int) (maxPointToKeyLength : ℚ)
    (pI : ProximityInfo) (inputSize : Nat)
    (xCoordinates yCoordinates times : List Int) (isGeometric : Bool) :
    PIState :=
  let size := arrs.xs.length
  let mAverageSpeed :=
    if 0 < size && isGeometric then
      (utils.refreshSpeedRates inputSize xCoordinates yCoordinates times
        lastSavedInputSize size arrs base.mSpeedRates base.mDirections).1
    else base.mAverageSpeed
  let mSpeedRates :=
    if 0 < size && isGeometric then
      (utils.refreshSpeedRates inputSize xCoordinates yCoordinates times
        lastSavedInputSize size arrs base.mSpeedRates base.mDirections).2.1
    else base.mSpeedRates
  let mDirections :=
    if 0 < size && isGeometric then
      (utils.refreshSpeedRates inputSize xCoordinates yCoordinates times
        lastSavedInputSize size arrs base.mSpeedRates base.mDirections).2.2
    else base.mDirections
  let mBeelineSpeedPercentiles :=
    if 0 < size && isGeometric then
      utils.refreshBeelineSpeedRates pI.getMostCommonKeyWidth
        (utils.refreshSpeedRates inputSize xCoordinates yCoordinates times
          lastSavedInputSize size arrs base.mSpeedRates base.mDirections).1
        inputSize xCoordinates yCoordinates times size arrs
        base.mBeelineSpeedPercentiles
    else base.mBeelineSpeedPercentiles
  let keyCount := pI.keyCount
  let mDistanceCache_G :=
    if 0 < size then
      buildDistanceCache base.mDistanceCache_G pI keyCount lastSavedInputSize
        size arrs.xs arrs.ys
    else base.mDistanceCache_G
  let mNearKeysVector :=
    if 0 < size then
      buildNearKeysVector base.mNearKeysVector pI keyCount lastSavedInputSize
        size arrs.xs arrs.ys
    else base.mNearKeysVector
  let mCharProbabilities :=
    if 0 < size && isGeometric then
      updateAlignPointProbabilities utils.alignStep lastSavedInputSize size
        (alignCtx maxPointToKeyLength pI.getMostCommonKeyWidth keyCount
          arrs.xs arrs.ys arrs.lengthCache mSpeedRates mDistanceCache_G
          mNearKeysVector)
        base.mCharProbabilities
    else base.mCharProbabilities
  let searchMid :=
    if 0 < size then buildSearchMid base.mSearchKeysVector lastSavedInputSize size
    else base.mSearchKeysVector
  let mSearchKeysVector :=
    if 0 < size && isGeometric then
      buildSearchKeysVector searchMid mNearKeysVector arrs.lengthCache
        lastSavedInputSize size
        (readForwordLength (utils.hypotf pI.getKeyboardWidth pI.getKeyboardHeight))
    else searchMid
  let mTouchPositionCorrectionEnabled :=
    0 < size && pI.hasTouchPositionCorrectionData
  let primaryAt := fun i =>
    mInputProximities.getD (i * MAX_PROXIMITY_CHARS_SIZE) 0
  let mPrimaryInputWord :=
    (List.range MAX_WORD_LENGTH).map fun i =>
      if (!isGeometric && pointerId == 0) && i < inputSize then primaryAt i else 0
  let mNormalizedSquaredDistances :=
    if !isGeometric && pointerId == 0 then
      computeNormalizedSquaredDistances pI mInputProximities arrs.xs arrs.ys
        size mTouchPositionCorrectionEnabled
    else List.replicate (MAX_WORD_LENGTH * MAX_PROXIMITY_CHARS_SIZE) NOT_A_DISTANCE
  { mHasTouchPositionCorrectionData := pI.hasTouchPositionCorrectionData
    mMostCommonKeyWidthSquare := pI.getMostCommonKeyWidthSquare
    mKeyCount := pI.keyCount
    mCellHeight := pI.getCellHeight
    mCellWidth := pI.getCellWidth
    mGridHeight := pI.getGridWidth
    mGridWidth := pI.getGridHeight
    mInputProximities := mInputProximities
    mMaxPointToKeyLength := maxPointToKeyLength
    mSampledInputXs := arrs.xs
    mSampledInputYs := arrs.ys
    mTimes := arrs.times
    mLengthCache := arrs.lengthCache
    mInputIndice := arrs.inputIndice
    mDistanceCache_G := mDistanceCache_G
    mNearKeysVector := mNearKeysVector
    mSearchKeysVector := mSearchKeysVector
    mSpeedRates := mSpeedRates
    mDirections := mDirections
    mBeelineSpeedPercentiles := mBeelineSpeedPercentiles
    mCharProbabilities := mCharProbabilities
    mSampledInputSize := size
    mAverageSpeed := mAverageSpeed
    mNormalizedSquaredDistances := mNormalizedSquaredDistances
    mPrimaryInputWord := mPrimaryInputWord
    mTouchPositionCorrectionEnabled := mTouchPositionCorrectionEnabled
    mIsContinuationPossible := contPossible }

/-- The body of `initInputParams` after the continuation branch decided the
reused prefix: `pushTouchPointStartIndex` and `lastSavedInputSize` are the
values computed at lines 61-70, `base` is the session state after the pop/clear
of lines 64-85; `mInputProximities` is initialized (lines 52-57) and the
resampler is invoked (lines 92-98), after which `initWithTouchPoints`
recomputes the rest. -/
def initAfterBranch (utils : StateUtils) (pushTouchPointStartIndex : Int)
    (lastSavedInputSize : Nat) (base : PIState) (contPossible : Bool)
    (pointerId : Int) (maxPointToKeyLength : ℚ) (pI : ProximityInfo)
    (inputCodes : List Int) (inputSize : Nat)
    (xCoordinates yCoordinates times pointerIds : List Int)
    (isGeometric : Bool) : PIState :=
  let mInputProximities :=
    if !isGeometric && pointerId == 0 then
      pI.initProximities inputCodes xCoordinates yCoordinates inputSize
    else List.replicate (MAX_WORD_LENGTH * MAX_PROXIMITY_CHARS_SIZE) 0
  initWithTouchPoints utils
    (utils.updateTouchPoints pI.getMostCommonKeyWidth pI maxPointToKeyLength
      mInputProximities xCoordinates yCoordinates times pointerIds inputSize
      isGeometric pointerId pushTouchPointStartIndex
      ⟨base.mSampledInputXs, base.mSampledInputYs, base.mTimes,
        base.mLengthCache, base.mInputIndice⟩)
    mInputProximities lastSavedInputSize base contPossible pointerId
    maxPointToKeyLength pI inputSize xCoordinates yCoordinates times
    isGeometric

/-- `ProximityInfoState::initInputParams` (lines 36-240).  The continuation
check runs against the incoming state; if continuation is possible and more
than one point was sampled, the resume position is read and the two most
recent input points are popped (lines 64-70), otherwise all data is cleared
(lines 71-85).  Note lines 49-50 populate `mGridHeight` from the provider's
grid *width* and vice versa, faithfully reproduced in `initAfterBranch`. -/
def PIState.initInputParams (st : PIState) (utils : StateUtils)
    (pointerId : Int) (maxPointToKeyLength : ℚ) (pI : ProximityInfo)
    (inputCodes : List Int) (inputSize : Nat)
    (xCoordinates yCoordinates times pointerIds : List Int)
    (isGeometric : Bool) : PIState :=
  let contPossible := st.checkAndReturnIsContinuationPossible inputSize
    xCoordinates yCoordinates times isGeometric
  if contPossible ∧ st.mInputIndice.length > 1 then
    let base := st.popInputData.popInputData
    initAfterBranch utils (st.mInputIndice.getD (st.mInputIndice.length - 2) 0)
      base.mSampledInputXs.length base contPossible pointerId
      maxPointToKeyLength pI inputCodes inputSize xCoordinates yCoordinates
      times pointerIds isGeometric
  else
    initAfterBranch utils 0 0 st.clearSampledBuffers contPossible pointerId
      maxPointToKeyLength pI inputCodes inputSize xCoordinates yCoordinates
      times pointerIds isGeometric

/-- Rendering of claim C2's selection rule exactly as stated by the spec: the
adjustment penalizes the distinguished *skip* entry by the additive constant,
so the skip entry is preferred only when clearly better than any real key.
(Compare `adjustedLogProbability`, which is what the source computes.) -/
def specClaimAdjusted (e : Int × ℚ) : ℚ :=
  if e.1 = NOT_AN_INDEX then e.2 + DEMOTION_LOG_PROBABILITY else e.2

/-- Per-point selection under claim C2's stated rule. -/
def specClaimSelectEntry (d : List (Int × ℚ)) : ℚ × Int :=
  d.foldl
    (fun acc e =>
      let logProbability := specClaimAdjusted e
      if logProbability < acc.1 then (logProbability, e.1) else acc)
    (MAX_POINT_TO_KEY_LENGTH, NOT_AN_INDEX)

/-- The decoder loop under claim C2's stated per-point rule (identical control
flow, claim-side selection). -/
def specClaimMostProbableStringAux (pI : ProximityInfo) :
    List (List (Int × ℚ)) → Nat → List Int × ℚ
  | [], _ => ([], 0)
  | d :: rest, index =>
    if index < MAX_WORD_LENGTH - 1 then
      let sel := specClaimSelectEntry d
      if sel.2 ≠ NOT_AN_INDEX then
        let r := specClaimMostProbableStringAux pI rest (index + 1)
        (pI.getCodePointOf sel.2 :: r.1, sel.1 + r.2)
      else
        let r := specClaimMostProbableStringAux pI rest index
        (r.1, sel.1 + r.2)
    else ([], 0)

/-- The decoder as claim C2 describes it, as a query on the session state. -/
def PIState.specClaimMostProbableString (st : PIState) (pI : ProximityInfo) :
    List Int × ℚ :=
  specClaimMostProbableStringAux pI
    (st.mCharProbabilities.take st.mSampledInputSize) 0

/-- Spec-side rendering of the *amended* per-point rule: take the minimum of
the adjusted values (real keys demoted by `DEMOTION_LOG_PROBABILITY`, the skip
entry kept raw) together with the `MAX_POINT_TO_KEY_LENGTH` default, and
select the first entry attaining that minimum; no character is selected when
nothing beats the default. -/
def specAmendedSelectEntry (d : List (Int × ℚ)) : ℚ × Int :=
  let m := (d.map adjustedLogProbability).foldl min MAX_POINT_TO_KEY_LENGTH
  (m,
    if m < MAX_POINT_TO_KEY_LENGTH then
      match d.find? (fun e => decide (adjustedLogProbability e = m)) with
      | some e => e.1
      | none => NOT_AN_INDEX
    else NOT_AN_INDEX)

/-- The decoder loop under the amended per-point rule: append the selected
character unless the winner is the skip entry, and sum the per-point minima,
emitting at most `MAX_WORD_LENGTH - 1` characters. -/
def specAmendedMostProbableStringAux (pI : ProximityInfo) :
    List (List (Int × ℚ)) → Nat → List Int × ℚ
  | [], _ => ([], 0)
  | d :: rest, index =>
    if index < MAX_WORD_LENGTH - 1 then
      let sel := specAmendedSelectEntry d
      if sel.2 ≠ NOT_AN_INDEX then
        let r := specAmendedMostProbableStringAux pI rest (index + 1)
        (pI.getCodePointOf sel.2 :: r.1, sel.1 + r.2)
      else
        let r := specAmendedMostProbableStringAux pI rest index
        (r.1, sel.1 + r.2)
    else ([], 0)

/-- The amended decoder contract as a query on the session state. -/
def PIState.specAmendedMostProbableString (st : PIState) (pI : ProximityInfo) :
    List Int × ℚ :=
  specAmendedMostProbableStringAux pI
    (st.mCharProbabilities.take st.mSampledInputSize) 0

/-- The components of the session state observable through the exposed query
API (§6) after a completed `initInputParams` call.  `mIsContinuationPossible`
and `mAverageSpeed` are excluded: no exposed query reads them, and both are
recomputed at the start of the next `initInputParams` call before any use. -/
def PIState.observables (st : PIState) :=
  (st.mHasTouchPositionCorrectionData, st.mMostCommonKeyWidthSquare,
    st.mKeyCount, st.mCellHeight, st.mCellWidth, st.mGridHeight, st.mGridWidth,
    st.mInputProximities, st.mMaxPointToKeyLength, st.mSampledInputXs,
    st.mSampledInputYs, st.mTimes, st.mLengthCache, st.mInputIndice,
    st.mDistanceCache_G, st.mNearKeysVector, st.mSearchKeysVector,
    st.mSpeedRates, st.mDirections, st.mBeelineSpeedPercentiles,
    st.mCharProbabilities, st.mSampledInputSize,
    st.mNormalizedSquaredDistances, st.mPrimaryInputWord,
    st.mTouchPositionCorrectionEnabled)

/-- A small concrete geometry provider for closed examples: one key that is
close (distance 0) exactly to the points with `x = 9` and far (distance 100)
from everything else; the only key's code point is 97. -/
def pInfoOneKey : ProximityInfo where
  keyCount := 1
  getMostCommonKeyWidth := 10
  getMostCommonKeyWidthSquare := 100
  getCellHeight := 1
  getCellWidth := 1
  getGridWidth := 1
  getGridHeight := 1
  getKeyboardWidth := 100
  getKeyboardHeight := 100
  hasTouchPositionCorrectionData := false
  getNormalizedSquaredDistanceFromCenterFloatG := fun _ x _ =>
    if x == 9 then 0 else 100
  getKeyIndexOf := fun c => if c == 97 then 0 else NOT_AN_INDEX
  getCodePointOf := fun _ => 97
  getKeyCenterXOfKeyIdG := fun _ => 9
  getKeyCenterYOfKeyIdG := fun _ => 9
  hasSweetSpotData := fun _ => false
  getSweetSpotCenterXAt := fun _ => 9
  getSweetSpotCenterYAt := fun _ => 9
  getSweetSpotRadiiAt := fun _ => 1
  initProximities := fun _ _ _ _ => []
  hasSpaceProximity := fun _ _ => false

/-- A concrete utils instance for closed examples.  Its resampler dispatches
on the raw input size: a 3-point stream samples to the three raw points
unchanged (the third, at x = 9, being a boundary artifact of the
partial-stream resampling), while the extended 4-point stream resamples to a
smoothed sequence in which the boundary artifact has moved away from x = 9 —
exactly the boundary effect the pop-two rule of §4.1 anticipates.  Speed
rates are a constant 1 per sampled point. -/
def utilsBoundary : StateUtils where
  updateTouchPoints := fun _ _ _ _ _ _ _ _ n _ _ _ _ =>
    if n == 3 then ⟨[0, 1, 9], [0, 1, 9], [0, 1, 2], [0, 0, 0], [0, 1, 2]⟩
    else ⟨[0, 1, 2, 3], [0, 1, 2, 3], [0, 1, 2, 3], [0, 0, 0, 0], [0, 1, 2, 3]⟩
  refreshSpeedRates := fun _ _ _ _ _ size _ _ _ =>
    (0, List.replicate size 1, List.replicate size 0)
  refreshBeelineSpeedRates := fun _ _ _ _ _ _ _ _ _ => []
  alignStep := fun _ _ => []
  hypotf := fun _ _ => 2000

/-- A session whose first proximity row is `[100, 101, 102, DELIM, 103]`
(zero padded), used in closed examples about the proximity matcher. -/
def stProx : PIState :=
  { PIState.empty with mInputProximities := [100, 101, 102, 2, 103] }

/-- A small tap-mode session snapshot with two sampled points, used in closed
examples. -/
def stTap : PIState :=
  { PIState.empty with
    mSampledInputXs := [3, 4]
    mSampledInputYs := [5, 6]
    mTimes := [0, 5]
    mSampledInputSize := 2 }

/-- A one-point session whose caller-supplied `maxPointToKeyLength` is 1, used
in closed examples about the length clamp: point 0 is an in-range sampled
point, and its cached distance to key 0 is 100. -/
def stMaxOne : PIState :=
  { PIState.empty with
    mSampledInputXs := [0]
    mSampledInputYs := [0]
    mSampledInputSize := 1
    mDistanceCache_G := [100]
    mNearKeysVector := [∅]
    mMaxPointToKeyLength := 1 }

/-- A one-point session whose distribution holds the skip entry and key 0 with
the same raw log-probability 1, used in closed examples about the decoder. -/
def stProbs : PIState :=
  { PIState.empty with
    mSampledInputSize := 1
    mCharProbabilities := [[(NOT_AN_INDEX, 1), (0, 1)]] }

/-- A one-point session whose search-key set at point 0 is `{0}`, used in
closed examples about character enumeration. -/
def stSearch : PIState :=
  { PIState.empty with
    mSampledInputXs := [9]
    mSampledInputYs := [9]
    mSampledInputSize := 1
    mSearchKeysVector := [{0}] }

/-- First gesture call of the continuation scenario: the raw 3-point stream
`(0,0) (1,1) (9,9)` sampled from a fresh session. -/
def stGesture1 : PIState :=
  PIState.empty.initInputParams utilsBoundary 0 10 pInfoOneKey [] 3
    [0, 1, 9] [0, 1, 9] [0, 1, 2] [0, 0, 0] true

/-- Second, incremental gesture call of the continuation scenario: the stream
extended by one raw point, continuing from `stGesture1`. -/
def stGesture2 : PIState :=
  stGesture1.initInputParams utilsBoundary 0 10 pInfoOneKey [] 4
    [0, 1, 9, 3] [0, 1, 9, 3] [0, 1, 2, 3] [0, 0, 0, 0] true

/-- The same extended stream processed in a single call from a fresh session. -/
def stGestureFresh : PIState :=
  PIState.empty.initInputParams utilsBoundary 0 10 pInfoOneKey [] 4
    [0, 1, 9, 3] [0, 1, 9, 3] [0, 1, 2, 3] [0, 0, 0, 0] true

/-! ## Theorems -/

/-- C8: out-of-range neutrality.  For every point index outside
`[0, sampledInputSize)`, `getDuration` returns 0, and `getLineToKeyDistance`
returns 0 whenever either of its from/to indices is outside
`[0, sampledInputSize)`; both are total pure functions of the state, so
neither fails nor mutates anything. -/
theorem outOfRange_queries_neutral (st : PIState) (pI : ProximityInfo)
    (ptl : Int → Int → Int → Int → Int → Int → Bool → ℚ)
    (index fromIdx toIdx keyId : Int) (extend : Bool)
    (hidx : index < 0 ∨ (st.mSampledInputSize : Int) ≤ index)
    (hline : fromIdx < 0 ∨ (st.mSampledInputSize : Int) ≤ fromIdx ∨
      toIdx < 0 ∨ (st.mSampledInputSize : Int) ≤ toIdx) :
    st.getDuration index = 0 ∧
      st.getLineToKeyDistance pI ptl fromIdx toIdx keyId extend = 0 := by
  constructor
  · unfold PIState.getDuration
    rw [if_neg (by omega)]
  · unfold PIState.getLineToKeyDistance
    by_cases h1 : fromIdx < 0 ∨ fromIdx > (st.mSampledInputSize : Int) - 1
    · rw [if_pos h1]
    · rw [if_neg h1, if_pos (by omega)]

/-- Witness for C8 at concrete inputs. -/
theorem outOfRange_queries_neutral_witness :
    stTap.getDuration 7 = 0 ∧
      stTap.getLineToKeyDistance pInfoOneKey (fun _ _ _ _ _ _ _ => 5) 0 (-1) 0 false = 0 :=
  outOfRange_queries_neutral stTap pInfoOneKey (fun _ _ _ _ _ _ _ => 5) 7 0 (-1) 0 false
    (by decide) (by decide)

/-- C10: `getDuration` returns 0 also for the last sampled point (index
`sampledInputSize - 1`), even though that index is in range; a nonzero
duration is only possible for indices in `[0, sampledInputSize - 1)`. -/
theorem getDuration_lastPoint_zero (st : PIState) (index : Int) :
    st.getDuration ((st.mSampledInputSize : Int) - 1) = 0 ∧
      (st.getDuration index ≠ 0 →
        0 ≤ index ∧ index < (st.mSampledInputSize : Int) - 1) := by
  constructor
  · unfold PIState.getDuration
    rw [if_neg (by omega)]
  · intro hnz
    by_contra hcon
    apply hnz
    unfold PIState.getDuration
    rw [if_neg (by omega)]

/-- Witness for C10: on `stTap` the last in-range index 1 yields duration 0
while index 0 yields the nonzero duration 5, hence lies in
`[0, sampledInputSize - 1)`. -/
theorem getDuration_lastPoint_zero_witness :
    stTap.getDuration ((stTap.mSampledInputSize : Int) - 1) = 0 ∧
      (0 ≤ (0 : Int) ∧ (0 : Int) < (stTap.mSampledInputSize : Int) - 1) :=
  ⟨(getDuration_lastPoint_zero stTap 0).1,
    (getDuration_lastPoint_zero stTap 0).2 (by decide)⟩

/-- C4, counterexample: the claim states the returned value never exceeds the
caller-supplied `maxPointToKeyLength` for every in-range sampled point index;
but on this one-point session (index 0 is in range), for a code point with no
key on the keyboard that is not skippable, the code returns the fixed global
`MAX_POINT_TO_KEY_LENGTH`, which exceeds the caller-supplied bound 1. -/
theorem getPointToKeyLength_clamp_counterexample :
    0 < stMaxOne.mSampledInputSize ∧
    ¬ (stMaxOne.getPointToKeyLength pInfoOneKey (fun _ => false) 0 98 1
        ≤ stMaxOne.mMaxPointToKeyLength) := by decide

/-- C4, amended: for a code point that has a key on the keyboard the value is
clamped to the caller-supplied `maxPointToKeyLength`; for a code point with no
key it is exactly 0 when skippable and exactly the fixed
`MAX_POINT_TO_KEY_LENGTH` otherwise. -/
theorem getPointToKeyLength_clamp_amended (st : PIState) (pI : ProximityInfo)
    (isSkippableCodePoint : Int → Bool) (inputIndex : Nat) (codePoint : Int)
    (scale : ℚ) :
    (pI.getKeyIndexOf codePoint ≠ NOT_AN_INDEX →
      st.getPointToKeyLength pI isSkippableCodePoint inputIndex codePoint scale
        ≤ st.mMaxPointToKeyLength) ∧
    (pI.getKeyIndexOf codePoint = NOT_AN_INDEX →
      isSkippableCodePoint codePoint = true →
      st.getPointToKeyLength pI isSkippableCodePoint inputIndex codePoint scale = 0) ∧
    (pI.getKeyIndexOf codePoint = NOT_AN_INDEX →
      isSkippableCodePoint codePoint = false →
      st.getPointToKeyLength pI isSkippableCodePoint inputIndex codePoint scale
        = MAX_POINT_TO_KEY_LENGTH) := by
  refine ⟨fun h => ?_, fun h hs => ?_, fun h hs => ?_⟩
  · unfold PIState.getPointToKeyLength
    rw [if_pos h]
    exact min_le_right _ _
  · unfold PIState.getPointToKeyLength
    rw [if_neg (by simpa using h), if_pos hs]
  · unfold PIState.getPointToKeyLength
    rw [if_neg (by simpa using h), if_neg (by simp [hs])]

/-- Witness for C4 (amended) at concrete inputs: code point 97 has key 0 and
is clamped; code point 98 has no key and yields 0 when skippable and
`MAX_POINT_TO_KEY_LENGTH` when not. -/
theorem getPointToKeyLength_clamp_amended_witness :
    (stMaxOne.getPointToKeyLength pInfoOneKey (fun _ => false) 0 97 1
        ≤ stMaxOne.mMaxPointToKeyLength) ∧
    (stMaxOne.getPointToKeyLength pInfoOneKey (fun _ => true) 0 98 1 = 0) ∧
    (stMaxOne.getPointToKeyLength pInfoOneKey (fun _ => false) 0 98 1
        = MAX_POINT_TO_KEY_LENGTH) :=
  ⟨(getPointToKeyLength_clamp_amended stMaxOne pInfoOneKey (fun _ => false) 0 97 1).1
      (by decide),
    (getPointToKeyLength_clamp_amended stMaxOne pInfoOneKey (fun _ => true) 0 98 1).2.1
      (by decide) rfl,
    (getPointToKeyLength_clamp_amended stMaxOne pInfoOneKey (fun _ => false) 0 98 1).2.2
      (by decide) rfl⟩

/-- C5: in tap mode, `checkAndReturnIsContinuationPossible` returns true iff
the new input size is at least the previously sampled size and the first
`min(sampledInputSize, MAX_WORD_LENGTH)` coordinate pairs of the new stream
match the stored sampled coordinates exactly. -/
theorem checkContinuation_tapMode_iff (st : PIState) (inputSize : Nat)
    (xCoordinates yCoordinates times : List Int) :
    st.checkAndReturnIsContinuationPossible inputSize xCoordinates yCoordinates
        times false = true ↔
      (st.mSampledInputSize ≤ inputSize ∧
        ∀ i < min st.mSampledInputSize MAX_WORD_LENGTH,
          xCoordinates.getD i 0 = st.mSampledInputXs.getD i 0 ∧
          yCoordinates.getD i 0 = st.mSampledInputYs.getD i 0) := by
  unfold PIState.checkAndReturnIsContinuationPossible
  simp only [Bool.false_eq_true, if_false]
  by_cases hle : (inputSize : Int) < (st.mSampledInputSize : Int)
  · rw [if_pos hle]
    simp only [Bool.false_eq_true, false_iff, not_and]
    intro h
    omega
  · rw [if_neg hle]
    simp only [List.all_eq_true, List.mem_range, Bool.and_eq_true, beq_iff_eq]
    constructor
    · intro h
      exact ⟨by omega, h⟩
    · intro h
      exact h.2

/-- Witness for C5: the stored two-point tap session accepts the matching
three-point stream. -/
theorem checkContinuation_tapMode_iff_witness :
    stTap.checkAndReturnIsContinuationPossible 3 [3, 4, 7] [5, 6, 8] [0, 0, 0]
      false = true :=
  (checkContinuation_tapMode_iff stTap 3 [3, 4, 7] [5, 6, 8] [0, 0, 0]).mpr
    (by decide)

/-- C3: classifier priority.  For a sampled point whose proximity code-point
list has the shape `[primary, a, b, DELIM, c]` (zero padded to capacity) and
with proximity checking enabled: the primary itself is `EQUIVALENT_CHAR`;
`a` is `NEAR_PROXIMITY_CHAR` at proximity index 1; `c`, found after the
delimiter, is `ADDITIONAL_PROXIMITY_CHAR` at proximity index 4; and a target
`t` absent from the list (also under base-lowercasing) is `UNRELATED_CHAR`.
The hypotheses state that the listed code points are real (above the delimiter
code) and that the non-matching comparisons of each scenario indeed fail. -/
theorem getMatchedProximityId_priority (st : PIState) (blc : Int → Int)
    (index : Nat) (p a b c t : Int)
    (hrow : st.getProximityCodePointsAt index
      = [p, a, b, ADDITIONAL_PROXIMITY_CHAR_DELIMITER_CODE, c] ++ List.replicate 11 0)
    (haD : ADDITIONAL_PROXIMITY_CHAR_DELIMITER_CODE < a)
    (hbD : ADDITIONAL_PROXIMITY_CHAR_DELIMITER_CODE < b)
    (hcD : ADDITIONAL_PROXIMITY_CHAR_DELIMITER_CODE < c)
    (h2a : p ≠ blc a) (h2b : p ≠ a) (h2c : blc p ≠ blc a)
    (h3a : p ≠ blc c) (h3b : p ≠ c) (h3c : blc p ≠ blc c)
    (h3d : a ≠ blc c) (h3e : a ≠ c) (h3f : b ≠ blc c) (h3g : b ≠ c)
    (h4a : p ≠ blc t) (h4b : p ≠ t) (h4c : blc p ≠ blc t)
    (h4d : a ≠ blc t) (h4e : a ≠ t) (h4f : b ≠ blc t) (h4g : b ≠ t)
    (h4h : c ≠ blc t) (h4i : c ≠ t) :
    st.getMatchedProximityId blc index p true = (ProximityType.EQUIVALENT_CHAR, none) ∧
    st.getMatchedProximityId blc index a true = (ProximityType.NEAR_PROXIMITY_CHAR, some 1) ∧
    st.getMatchedProximityId blc index c true = (ProximityType.ADDITIONAL_PROXIMITY_CHAR, some 4) ∧
    st.getMatchedProximityId blc index t true = (ProximityType.UNRELATED_CHAR, none) := by
  have hpad : ¬ ADDITIONAL_PROXIMITY_CHAR_DELIMITER_CODE < (0 : Int) := by decide
  have hpad2 : (0 : Int) ≠ ADDITIONAL_PROXIMITY_CHAR_DELIMITER_CODE := by decide
  have key : ∀ x : Int, st.getMatchedProximityId blc index x true
      = getMatchedProximityIdCore blc
          ([p, a, b, ADDITIONAL_PROXIMITY_CHAR_DELIMITER_CODE, c]
            ++ List.replicate 11 0) x true := by
    intro x
    rw [PIState.getMatchedProximityId, hrow]
  refine ⟨?_, ?_, ?_, ?_⟩ <;> rw [key] <;>
    simp [getMatchedProximityIdCore, nearProximityScan, additionalProximityScan,
      List.replicate_succ, lt_irrefl, hpad, hpad2,
      haD, hbD, hcD, h2a, h2b, h2c, h3a, h3b, h3c, h3d, h3e, h3f, h3g,
      h4a, h4b, h4c, h4d, h4e, h4f, h4g, h4h, h4i]

/-- Witness for C3 at concrete inputs: the identity normalization and the
list `[100, 101, 102, DELIM, 103]` with absent target 104. -/
theorem getMatchedProximityId_priority_witness :
    stProx.getMatchedProximityId (fun x => x) 0 100 true
        = (ProximityType.EQUIVALENT_CHAR, none) ∧
    stProx.getMatchedProximityId (fun x => x) 0 101 true
        = (ProximityType.NEAR_PROXIMITY_CHAR, some 1) ∧
    stProx.getMatchedProximityId (fun x => x) 0 103 true
        = (ProximityType.ADDITIONAL_PROXIMITY_CHAR, some 4) ∧
    stProx.getMatchedProximityId (fun x => x) 0 104 true
        = (ProximityType.UNRELATED_CHAR, none) :=
  getMatchedProximityId_priority stProx (fun x => x) 0 100 101 102 103 104
    (by decide) (by decide) (by decide) (by decide) (by decide) (by decide)
    (by decide) (by decide) (by decide) (by decide) (by decide) (by decide)
    (by decide) (by decide) (by decide) (by decide) (by decide) (by decide)
    (by decide) (by decide) (by decide) (by decide) (by decide)

/-- A filterMap whose function is an if-then-some-else-none is the map of the
filtered list. -/
theorem filterMap_ite_eq_map_filter {α β : Type} (p : α → Prop) [DecidablePred p]
    (g : α → β) (l : List α) :
    (l.filterMap fun j => if p j then some (g j) else none)
      = (l.filter fun j => decide (p j)).map g := by
  induction l with
  | nil => rfl
  | cons x xs ih =>
    by_cases h : p x <;> simp [List.filterMap_cons, List.filter_cons, h, ih]

/-- C9: deduplicated enumeration.  If the incoming filter has no duplicates
and the keyboard's keys carry pairwise distinct code points, the filter
returned by `getAllPossibleChars` has no duplicates. -/
theorem getAllPossibleChars_nodup (st : PIState) (pI : ProximityInfo)
    (index : Nat) (filter : List Int) (hnd : filter.Nodup)
    (hinj : ∀ j1 < pI.keyCount, ∀ j2 < pI.keyCount,
      pI.getCodePointOf (j1 : Int) = pI.getCodePointOf (j2 : Int) → j1 = j2) :
    (st.getAllPossibleChars pI index filter).Nodup := by
  unfold PIState.getAllPossibleChars
  split
  · exact hnd
  · rw [filterMap_ite_eq_map_filter]
    refine List.Nodup.append hnd ?_ ?_
    · refine List.Nodup.map_on ?_ ((List.nodup_range _).filter _)
      intro x hx y hy hxy
      have hx' := List.mem_filter.1 hx
      have hy' := List.mem_filter.1 hy
      exact hinj x (List.mem_range.1 hx'.1) y (List.mem_range.1 hy'.1) hxy
    · intro x hxf hxnews
      rw [List.mem_map] at hxnews
      obtain ⟨j, hj, rfl⟩ := hxnews
      have hj' := of_decide_eq_true (List.mem_filter.1 hj).2
      exact hj'.2 hxf

/-- Witness for C9 at concrete inputs. -/
theorem getAllPossibleChars_nodup_witness :
    (stSearch.getAllPossibleChars pInfoOneKey 0 [98]).Nodup :=
  getAllPossibleChars_nodup stSearch pInfoOneKey 0 [98] (by decide) (by decide)

/-- A left fold of `min` never exceeds its starting value. -/
theorem foldl_min_le_init (l : List ℚ) (m0 : ℚ) : l.foldl min m0 ≤ m0 := by
  induction l generalizing m0 with
  | nil => exact le_refl _
  | cons x xs ih => exact le_trans (ih (min m0 x)) (min_le_left _ _)

/-- A left fold of `min` is its starting value or an element of the list. -/
theorem foldl_min_mem (l : List ℚ) (m0 : ℚ) :
    l.foldl min m0 = m0 ∨ l.foldl min m0 ∈ l := by
  induction l generalizing m0 with
  | nil => exact Or.inl rfl
  | cons x xs ih =>
    rw [List.foldl_cons]
    rcases ih (min m0 x) with h | h
    · rw [h]
      rcases min_choice m0 x with h2 | h2
      · exact Or.inl h2
      · right
        rw [h2]
        exact List.mem_cons_self x xs
    · exact Or.inr (List.mem_cons_of_mem x h)

/-- Characterization of the source's select loop: the fold from an arbitrary
accumulator computes the minimum of the adjusted values, and the selected
character is the first entry attaining that minimum when some entry improved
on the start, the start's character otherwise. -/
theorem selectFold_eq (d : List (Int × ℚ)) (m0 : ℚ) (c0 : Int) :
    d.foldl selectStep (m0, c0)
      = ((d.map adjustedLogProbability).foldl min m0,
          if (d.map adjustedLogProbability).foldl min m0 < m0 then
            match d.find? (fun e => decide (adjustedLogProbability e
                = (d.map adjustedLogProbability).foldl min m0)) with
            | some e => e.1
            | none => c0
          else c0) := by
  induction d generalizing m0 c0 with
  | nil => simp
  | cons e rest ih =>
    rw [List.foldl_cons, List.map_cons, List.foldl_cons]
    by_cases h : adjustedLogProbability e < m0
    · have hstep : selectStep (m0, c0) e = (adjustedLogProbability e, e.1) := by
        simp [selectStep, if_pos h]
      have hme : min m0 (adjustedLogProbability e) = adjustedLogProbability e :=
        min_eq_right h.le
      rw [hstep, hme, ih]
      have hM0 : (rest.map adjustedLogProbability).foldl min
          (adjustedLogProbability e) < m0 :=
        lt_of_le_of_lt (foldl_min_le_init _ _) h
      rw [if_pos hM0]
      by_cases heq : adjustedLogProbability e
          = (rest.map adjustedLogProbability).foldl min (adjustedLogProbability e)
      · rw [List.find?_cons_of_pos _ (by simpa using heq)]
        rw [if_neg (by rw [← heq]; exact lt_irrefl _)]
      · rw [List.find?_cons_of_neg _ (by simpa using heq)]
        have hlt : (rest.map adjustedLogProbability).foldl min
            (adjustedLogProbability e) < adjustedLogProbability e := by
          rcases lt_or_eq_of_le (foldl_min_le_init
            (rest.map adjustedLogProbability) (adjustedLogProbability e)) with h2 | h2
          · exact h2
          · exact absurd h2.symm heq
        rw [if_pos hlt]
        rcases foldl_min_mem (rest.map adjustedLogProbability)
            (adjustedLogProbability e) with h2 | h2
        · exact absurd h2.symm heq
        · rw [List.mem_map] at h2
          obtain ⟨x, hx, hxeq⟩ := h2
          cases hfind : rest.find? (fun e2 => decide (adjustedLogProbability e2
              = (rest.map adjustedLogProbability).foldl min
                  (adjustedLogProbability e))) with
          | none =>
            exfalso
            rw [List.find?_eq_none] at hfind
            exact absurd (by simpa using hxeq) (by simpa using hfind x hx)
          | some y => rfl
    · have hstep : selectStep (m0, c0) e = (m0, c0) := by
        simp [selectStep, if_neg h]
      have hme : min m0 (adjustedLogProbability e) = m0 :=
        min_eq_left (le_of_not_lt h)
      rw [hstep, hme, ih]
      by_cases hM : (rest.map adjustedLogProbability).foldl min m0 < m0
      · rw [if_pos hM, if_pos hM]
        have hne : ¬ adjustedLogProbability e
            = (rest.map adjustedLogProbability).foldl min m0 := by
          intro hcon
          exact absurd (hcon ▸ hM) (not_lt.2 (le_of_not_lt h))
        rw [List.find?_cons_of_neg _ (by simpa using hne)]
      · rw [if_neg hM, if_neg hM]

/-- The source's per-point selection equals the amended spec-side selection. -/
theorem selectMostProbableEntry_eq_specAmended (d : List (Int × ℚ)) :
    selectMostProbableEntry d = specAmendedSelectEntry d := by
  unfold selectMostProbableEntry specAmendedSelectEntry
  rw [selectFold_eq]

/-- The decoder loops agree pointwise once the selections agree. -/
theorem getMostProbableStringAux_eq_specAmended (pI : ProximityInfo)
    (l : List (List (Int × ℚ))) (index : Nat) :
    getMostProbableStringAux pI l index = specAmendedMostProbableStringAux pI l index := by
  induction l generalizing index with
  | nil => rfl
  | cons d rest ih =>
    unfold getMostProbableStringAux specAmendedMostProbableStringAux
    rw [selectMostProbableEntry_eq_specAmended]
    by_cases hidx : index < MAX_WORD_LENGTH - 1
    · rw [if_pos hidx, if_pos hidx]
      by_cases hc : (specAmendedSelectEntry d).2 ≠ NOT_AN_INDEX
      · rw [if_pos hc, if_pos hc, ih]
      · rw [if_neg hc, if_neg hc, ih]
    · rw [if_neg hidx, if_neg hidx]

/-- C2, amended: `getMostProbableString` implements, for each sampled point in
order, the selection of the entry with the least *adjusted* log-probability
where the adjustment penalizes every real-key entry (not the skip entry) by
the additive constant `DEMOTION_LOG_PROBABILITY`; the winning character is
appended unless the winner is the skip entry, the per-point minima (defaulting
to `MAX_POINT_TO_KEY_LENGTH`) are summed into the returned score, and at most
`MAX_WORD_LENGTH - 1` characters are produced. -/
theorem getMostProbableString_rule_amended (st : PIState) (pI : ProximityInfo) :
    st.getMostProbableString pI = st.specAmendedMostProbableString pI :=
  getMostProbableStringAux_eq_specAmended pI _ 0

/-- C2, counterexample: with a distribution holding the skip entry and key 0
both at raw value 1, the code lets the skip entry win (the demotion constant
is added to the *real key*, not to the skip entry), producing the empty
string, whereas the claim's rule (skip penalized, preferred only when clearly
better) would append the key's character. -/
theorem getMostProbableString_rule_counterexample :
    stProbs.getMostProbableString pInfoOneKey
      ≠ stProbs.specClaimMostProbableString pInfoOneKey := by
  have h1 : stProbs.getMostProbableString pInfoOneKey = ([], 1) := by
    norm_num [PIState.getMostProbableString, getMostProbableStringAux,
      selectMostProbableEntry, selectStep, adjustedLogProbability, stProbs,
      NOT_AN_INDEX, MAX_POINT_TO_KEY_LENGTH, DEMOTION_LOG_PROBABILITY,
      MAX_WORD_LENGTH, PIState.empty]
  have h2 : stProbs.specClaimMostProbableString pInfoOneKey = ([97], 1) := by
    norm_num [PIState.specClaimMostProbableString, specClaimMostProbableStringAux,
      specClaimSelectEntry, specClaimAdjusted, stProbs, pInfoOneKey,
      NOT_AN_INDEX, MAX_POINT_TO_KEY_LENGTH, DEMOTION_LOG_PROBABILITY,
      MAX_WORD_LENGTH, PIState.empty]
  rw [h1, h2]
  intro hcon
  exact absurd (congrArg Prod.fst hcon) (by simp)

/-- Reading a mapped range at an in-range index. -/
theorem getD_range_map {α : Type} (f : ℕ → α) (n i : ℕ) (d : α) (h : i < n) :
    ((List.range n).map f).getD i d = f i := by
  rw [List.getD_eq_getElem?_getD, List.getElem?_map, List.getElem?_range h]
  rfl

/-- Reading a mapped `range'` at an in-range index. -/
theorem getD_range'_map {α : Type} (f : ℕ → α) (s n i : ℕ) (d : α) (h : i < n) :
    ((List.range' s n).map f).getD i d = f (s + i) := by
  rw [List.getD_eq_getElem?_getD, List.getElem?_map, List.getElem?_range']
  · simp
  · simpa using h

/-- Reading a mapped range out of range gives the default. -/
theorem getD_range_map_oob {α : Type} (f : ℕ → α) (n i : ℕ) (d : α) (h : n ≤ i) :
    ((List.range n).map f).getD i d = d := by
  apply List.getD_eq_default
  simpa using h

/-- C6: invalidation round-trip.  Whenever the continuation check fails on the
incoming session, `initInputParams` clears all per-session buffers, so the
resulting state is observably identical to running the same call on a fresh
session.  (`observables` covers every component read by the exposed query
API.) -/
theorem initInputParams_invalidation_roundTrip (st : PIState)
    (utils : StateUtils) (pointerId : Int) (maxPtk : ℚ) (pI : ProximityInfo)
    (inputCodes : List Int) (inputSize : Nat) (xs ys ts pIds : List Int)
    (isGeometric : Bool)
    (hfail : st.checkAndReturnIsContinuationPossible inputSize xs ys ts
      isGeometric = false) :
    (st.initInputParams utils pointerId maxPtk pI inputCodes inputSize xs ys
        ts pIds isGeometric).observables
      = (PIState.empty.initInputParams utils pointerId maxPtk pI inputCodes
          inputSize xs ys ts pIds isGeometric).observables := by
  unfold PIState.initInputParams
  rw [hfail]
  simp only [Bool.false_eq_true, false_and, if_false, PIState.empty,
    List.length_nil, gt_iff_lt, Nat.not_lt_zero, and_false]
  simp [initAfterBranch, initWithTouchPoints, PIState.observables,
    PIState.clearSampledBuffers]

/-- Witness for C6: after the 3-point gesture session, a stream whose first
point moved fails the replay check and the round-trip equals the fresh run. -/
theorem initInputParams_invalidation_roundTrip_witness :
    (stGesture1.initInputParams utilsBoundary 0 10 pInfoOneKey [] 4
        [5, 5, 5, 5] [5, 5, 5, 5] [0, 1, 2, 3] [0, 0, 0, 0] true).observables
      = (PIState.empty.initInputParams utilsBoundary 0 10 pInfoOneKey [] 4
          [5, 5, 5, 5] [5, 5, 5, 5] [0, 1, 2, 3] [0, 0, 0, 0] true).observables :=
  initInputParams_invalidation_roundTrip stGesture1 utilsBoundary 0 10
    pInfoOneKey [] 4 [5, 5, 5, 5] [5, 5, 5, 5] [0, 1, 2, 3] [0, 0, 0, 0] true
    (by decide)

/-- The rebuilt near-key sets and distance cache stay consistent: membership
in the near set is exactly a cached distance strictly below the threshold,
provided the retained prefix rows already satisfied this. -/
theorem buildNear_buildDist_inv (baseNear : List (Finset ℕ)) (baseDist : List ℚ)
    (pI : ProximityInfo) (lastSaved size : Nat) (xs ys : List Int)
    (hbase : ∀ i < lastSaved, ∀ k < pI.keyCount,
      (k ∈ baseNear.getD i ∅ ↔
        baseDist.getD (i * pI.keyCount + k) 0 < NEAR_KEY_NORMALIZED_SQUARED_THRESHOLD)) :
    ∀ i < size, ∀ k < pI.keyCount,
      (k ∈ (buildNearKeysVector baseNear pI pI.keyCount lastSaved size xs ys).getD i ∅ ↔
        (buildDistanceCache baseDist pI pI.keyCount lastSaved size xs ys).getD
          (i * pI.keyCount + k) 0 < NEAR_KEY_NORMALIZED_SQUARED_THRESHOLD) := by
  intro i hi k hk
  have hkc : 0 < pI.keyCount := by omega
  have hflat : i * pI.keyCount + k < size * pI.keyCount := by
    calc i * pI.keyCount + k < i * pI.keyCount + pI.keyCount := by omega
    _ = (i + 1) * pI.keyCount := by ring
    _ ≤ size * pI.keyCount := Nat.mul_le_mul_right _ (by omega)
  unfold buildNearKeysVector buildDistanceCache
  rw [getD_range_map _ _ _ _ hi, getD_range_map _ _ _ _ hflat]
  by_cases hil : i < lastSaved
  · have hflatl : i * pI.keyCount + k < lastSaved * pI.keyCount := by
      calc i * pI.keyCount + k < i * pI.keyCount + pI.keyCount := by omega
      _ = (i + 1) * pI.keyCount := by ring
      _ ≤ lastSaved * pI.keyCount := Nat.mul_le_mul_right _ (by omega)
    rw [if_pos hil, if_pos hflatl]
    exact hbase i hil k hk
  · have hflatl : ¬ i * pI.keyCount + k < lastSaved * pI.keyCount := by
      have : lastSaved * pI.keyCount ≤ i * pI.keyCount :=
        Nat.mul_le_mul_right _ (by omega)
      omega
    rw [if_neg hil, if_neg hflatl]
    have hdiv : (i * pI.keyCount + k) / pI.keyCount = i := by
      rw [Nat.mul_comm i pI.keyCount, Nat.mul_add_div hkc, Nat.div_eq_of_lt hk]
      omega
    have hmod : (i * pI.keyCount + k) % pI.keyCount = k := by
      rw [Nat.mul_comm i pI.keyCount, Nat.mul_add_mod, Nat.mod_eq_of_lt hk]
    rw [hdiv, hmod]
    simp [Finset.mem_filter, Finset.mem_range, hk]

/-- The near-key/distance consistency through the post-resampling tail of
`initInputParams`, for any resampler output. -/
theorem initWithTouchPoints_near_inv (utils : StateUtils)
    (arrs : SampledTouchData) (prox : List Int) (lastSaved : Nat)
    (base : PIState) (cont : Bool) (pointerId : Int) (maxPtk : ℚ)
    (pI : ProximityInfo) (inputSize : Nat) (xs ys ts : List Int)
    (isGeometric : Bool)
    (hbase : ∀ i < lastSaved, ∀ k < pI.keyCount,
      (k ∈ base.mNearKeysVector.getD i ∅ ↔
        base.mDistanceCache_G.getD (i * pI.keyCount + k) 0
          < NEAR_KEY_NORMALIZED_SQUARED_THRESHOLD)) :
    ∀ i < (initWithTouchPoints utils arrs prox lastSaved base cont pointerId
          maxPtk pI inputSize xs ys ts isGeometric).mSampledInputSize,
      ∀ k < pI.keyCount,
        (k ∈ (initWithTouchPoints utils arrs prox lastSaved base cont pointerId
            maxPtk pI inputSize xs ys ts isGeometric).mNearKeysVector.getD i ∅ ↔
          (initWithTouchPoints utils arrs prox lastSaved base cont pointerId
            maxPtk pI inputSize xs ys ts isGeometric).mDistanceCache_G.getD
              (i * pI.keyCount + k) 0 < NEAR_KEY_NORMALIZED_SQUARED_THRESHOLD) := by
  intro i hi k hk
  have hsize : (initWithTouchPoints utils arrs prox lastSaved base cont
      pointerId maxPtk pI inputSize xs ys ts isGeometric).mSampledInputSize
      = arrs.xs.length := rfl
  have hszpos : 0 < arrs.xs.length := by
    rw [hsize] at hi
    omega
  have hnear : (initWithTouchPoints utils arrs prox lastSaved base cont
      pointerId maxPtk pI inputSize xs ys ts isGeometric).mNearKeysVector
      = buildNearKeysVector base.mNearKeysVector pI pI.keyCount lastSaved
          arrs.xs.length arrs.xs arrs.ys := by
    show (if 0 < arrs.xs.length then _ else _) = _
    rw [if_pos hszpos]
  have hdist : (initWithTouchPoints utils arrs prox lastSaved base cont
      pointerId maxPtk pI inputSize xs ys ts isGeometric).mDistanceCache_G
      = buildDistanceCache base.mDistanceCache_G pI pI.keyCount lastSaved
          arrs.xs.length arrs.xs arrs.ys := by
    show (if 0 < arrs.xs.length then _ else _) = _
    rw [if_pos hszpos]
  rw [hnear, hdist]
  exact buildNear_buildDist_inv base.mNearKeysVector base.mDistanceCache_G pI
    lastSaved arrs.xs.length arrs.xs arrs.ys hbase i (by rw [hsize] at hi; exact hi)
    k hk

/-- C7: near-key threshold.  After `initInputParams`, for every sampled point
`i` and every key `k`, `k` is in the near-key set of point `i` iff the cached
normalized squared distance from point `i` to key `k` is strictly below the
4.0 threshold — provided the incoming session already satisfied this for the
points it retains (a fresh session does, vacuously). -/
theorem nearKeys_threshold_invariant (st : PIState) (utils : StateUtils)
    (pointerId : Int) (maxPtk : ℚ) (pI : ProximityInfo) (inputCodes : List Int)
    (inputSize : Nat) (xs ys ts pIds : List Int) (isGeometric : Bool)
    (hinv : ∀ i < st.mSampledInputXs.length, ∀ k < pI.keyCount,
      (k ∈ st.mNearKeysVector.getD i ∅ ↔
        st.mDistanceCache_G.getD (i * pI.keyCount + k) 0
          < NEAR_KEY_NORMALIZED_SQUARED_THRESHOLD)) :
    ∀ i < (st.initInputParams utils pointerId maxPtk pI inputCodes inputSize
        xs ys ts pIds isGeometric).mSampledInputSize,
      ∀ k < pI.keyCount,
        (k ∈ (st.initInputParams utils pointerId maxPtk pI inputCodes inputSize
            xs ys ts pIds isGeometric).mNearKeysVector.getD i ∅ ↔
          (st.initInputParams utils pointerId maxPtk pI inputCodes inputSize
            xs ys ts pIds isGeometric).mDistanceCache_G.getD
              (i * pI.keyCount + k) 0 < NEAR_KEY_NORMALIZED_SQUARED_THRESHOLD) := by
  simp only [PIState.initInputParams]
  by_cases hbr : st.checkAndReturnIsContinuationPossible inputSize xs ys ts
      isGeometric = true ∧ st.mInputIndice.length > 1
  · rw [if_pos hbr]
    simp only [initAfterBranch]
    apply initWithTouchPoints_near_inv
    intro i hi k hk
    have hlen : (st.popInputData.popInputData).mSampledInputXs.length
        = st.mSampledInputXs.length - 2 := by
      simp [PIState.popInputData]
      omega
    have hnear : (st.popInputData.popInputData).mNearKeysVector
        = st.mNearKeysVector := rfl
    have hdist : (st.popInputData.popInputData).mDistanceCache_G
        = st.mDistanceCache_G := rfl
    rw [hnear, hdist]
    rw [hlen] at hi
    exact hinv i (by omega) k hk
  · rw [if_neg hbr]
    simp only [initAfterBranch]
    apply initWithTouchPoints_near_inv
    intro i hi k hk
    exact absurd hi (by simp [PIState.clearSampledBuffers])

/-- Witness for C7: the concrete 3-point gesture run from a fresh session,
read at point 0 (distance 100, not near) and point 2 (distance 0, near). -/
theorem nearKeys_threshold_invariant_witness :
    (0 ∈ stGesture1.mNearKeysVector.getD 0 ∅ ↔
      stGesture1.mDistanceCache_G.getD (0 * pInfoOneKey.keyCount + 0) 0
        < NEAR_KEY_NORMALIZED_SQUARED_THRESHOLD) ∧
    (0 ∈ stGesture1.mNearKeysVector.getD 2 ∅ ↔
      stGesture1.mDistanceCache_G.getD (2 * pInfoOneKey.keyCount + 0) 0
        < NEAR_KEY_NORMALIZED_SQUARED_THRESHOLD) :=
  ⟨nearKeys_threshold_invariant PIState.empty utilsBoundary 0 10 pInfoOneKey []
      3 [0, 1, 9] [0, 1, 9] [0, 1, 2] [0, 0, 0] true (by decide) 0 (by decide)
      0 (by decide),
    nearKeys_threshold_invariant PIState.empty utilsBoundary 0 10 pInfoOneKey []
      3 [0, 1, 9] [0, 1, 9] [0, 1, 2] [0, 0, 0] true (by decide) 2 (by decide)
      0 (by decide)⟩

/-- C1, counterexample: in the concrete continuation scenario the replay
check holds and the reused prefix has length 1, so point 0 is *not* one of
the two popped points; the distance cache, near-key sets and probability
distributions of the incremental run all equal the fresh run's, but the
search-key set of point 0 differs — it retains the contribution of the
popped boundary point at `x = 9`, which the fresh resampling of the full
stream no longer produces. -/
theorem initInputParams_continuation_equivalence_counterexample :
    stGesture1.checkAndReturnIsContinuationPossible 4 [0, 1, 9, 3] [0, 1, 9, 3]
        [0, 1, 2, 3] true = true ∧
    1 < stGesture1.mInputIndice.length ∧
    0 < stGesture1.mSampledInputXs.length - 2 ∧
    stGesture2.mDistanceCache_G = stGestureFresh.mDistanceCache_G ∧
    stGesture2.mNearKeysVector = stGestureFresh.mNearKeysVector ∧
    stGesture2.mCharProbabilities = stGestureFresh.mCharProbabilities ∧
    stGesture2.mSearchKeysVector.getD 0 ∅
      ≠ stGestureFresh.mSearchKeysVector.getD 0 ∅ :=
  ⟨by decide, by decide, by decide, by decide, by decide, by decide, by decide⟩

/-- Projection: the sampled size is the length of the resampled xs. -/
theorem iwtp_size (utils : StateUtils) (A : SampledTouchData) (prox : List Int)
    (ls : Nat) (base : PIState) (cont : Bool) (pid : Int) (mptk : ℚ)
    (pI : ProximityInfo) (n : Nat) (xs ys ts : List Int) (geo : Bool) :
    (initWithTouchPoints utils A prox ls base cont pid mptk pI n xs ys ts
        geo).mSampledInputSize
      = (initWithTouchPoints utils A prox ls base cont pid mptk pI n xs ys ts
          geo).mSampledInputXs.length := rfl

/-- Projection: the distance cache after the tail of `initInputParams`. -/
theorem iwtp_dist (utils : StateUtils) (A : SampledTouchData) (prox : List Int)
    (ls : Nat) (base : PIState) (cont : Bool) (pid : Int) (mptk : ℚ)
    (pI : ProximityInfo) (n : Nat) (xs ys ts : List Int) (geo : Bool) :
    (initWithTouchPoints utils A prox ls base cont pid mptk pI n xs ys ts
        geo).mDistanceCache_G
      = if 0 < (initWithTouchPoints utils A prox ls base cont pid mptk pI n xs
            ys ts geo).mSampledInputSize then
          buildDistanceCache base.mDistanceCache_G pI pI.keyCount ls
            (initWithTouchPoints utils A prox ls base cont pid mptk pI n xs ys
              ts geo).mSampledInputSize
            (initWithTouchPoints utils A prox ls base cont pid mptk pI n xs ys
              ts geo).mSampledInputXs
            (initWithTouchPoints utils A prox ls base cont pid mptk pI n xs ys
              ts geo).mSampledInputYs
        else base.mDistanceCache_G := rfl

/-- Projection: the near-key sets after the tail of `initInputParams`. -/
theorem iwtp_near (utils : StateUtils) (A : SampledTouchData) (prox : List Int)
    (ls : Nat) (base : PIState) (cont : Bool) (pid : Int) (mptk : ℚ)
    (pI : ProximityInfo) (n : Nat) (xs ys ts : List Int) (geo : Bool) :
    (initWithTouchPoints utils A prox ls base cont pid mptk pI n xs ys ts
        geo).mNearKeysVector
      = if 0 < (initWithTouchPoints utils A prox ls base cont pid mptk pI n xs
            ys ts geo).mSampledInputSize then
          buildNearKeysVector base.mNearKeysVector pI pI.keyCount ls
            (initWithTouchPoints utils A prox ls base cont pid mptk pI n xs ys
              ts geo).mSampledInputSize
            (initWithTouchPoints utils A prox ls base cont pid mptk pI n xs ys
              ts geo).mSampledInputXs
            (initWithTouchPoints utils A prox ls base cont pid mptk pI n xs ys
              ts geo).mSampledInputYs
        else base.mNearKeysVector := rfl

/-- Projection: the per-point probability distributions after the tail of
`initInputParams` (gesture mode), expressed through the state's own computed
components (structure eta lets the resampled arrays be rebuilt from the
stored parallel lists). -/
theorem iwtp_charProbs (utils : StateUtils) (A : SampledTouchData)
    (prox : List Int) (ls : Nat) (base : PIState) (cont : Bool) (pid : Int)
    (mptk : ℚ) (pI : ProximityInfo) (n : Nat) (xs ys ts : List Int)
    (geo : Bool) :
    (initWithTouchPoints utils A prox ls base cont pid mptk pI n xs ys ts
        geo).mCharProbabilities
      = if (decide (0 < (initWithTouchPoints utils A prox ls base cont pid mptk
            pI n xs ys ts geo).mSampledInputSize) && geo) = true then
          updateAlignPointProbabilities utils.alignStep ls
            (initWithTouchPoints utils A prox ls base cont pid mptk pI n xs ys
              ts geo).mSampledInputSize
            (alignCtx mptk pI.getMostCommonKeyWidth pI.keyCount
              (initWithTouchPoints utils A prox ls base cont pid mptk pI n xs
                ys ts geo).mSampledInputXs
              (initWithTouchPoints utils A prox ls base cont pid mptk pI n xs
                ys ts geo).mSampledInputYs
              (initWithTouchPoints utils A prox ls base cont pid mptk pI n xs
                ys ts geo).mLengthCache
              (initWithTouchPoints utils A prox ls base cont pid mptk pI n xs
                ys ts geo).mSpeedRates
              (initWithTouchPoints utils A prox ls base cont pid mptk pI n xs
                ys ts geo).mDistanceCache_G
              (initWithTouchPoints utils A prox ls base cont pid mptk pI n xs
                ys ts geo).mNearKeysVector)
            base.mCharProbabilities
        else base.mCharProbabilities := rfl

/-- Projection: the search-key sets after the tail of `initInputParams`. -/
theorem iwtp_search (utils : StateUtils) (A : SampledTouchData)
    (prox : List Int) (ls : Nat) (base : PIState) (cont : Bool) (pid : Int)
    (mptk : ℚ) (pI : ProximityInfo) (n : Nat) (xs ys ts : List Int)
    (geo : Bool) :
    (initWithTouchPoints utils A prox ls base cont pid mptk pI n xs ys ts
        geo).mSearchKeysVector
      = if (decide (0 < (initWithTouchPoints utils A prox ls base cont pid mptk
            pI n xs ys ts geo).mSampledInputSize) && geo) = true then
          buildSearchKeysVector
            (if 0 < (initWithTouchPoints utils A prox ls base cont pid mptk pI
                n xs ys ts geo).mSampledInputSize then
              buildSearchMid base.mSearchKeysVector ls
                (initWithTouchPoints utils A prox ls base cont pid mptk pI n xs
                  ys ts geo).mSampledInputSize
            else base.mSearchKeysVector)
            (initWithTouchPoints utils A prox ls base cont pid mptk pI n xs ys
              ts geo).mNearKeysVector
            (initWithTouchPoints utils A prox ls base cont pid mptk pI n xs ys
              ts geo).mLengthCache
            ls
            (initWithTouchPoints utils A prox ls base cont pid mptk pI n xs ys
              ts geo).mSampledInputSize
            (readForwordLength (utils.hypotf pI.getKeyboardWidth
              pI.getKeyboardHeight))
        else
          (if 0 < (initWithTouchPoints utils A prox ls base cont pid mptk pI n
              xs ys ts geo).mSampledInputSize then
            buildSearchMid base.mSearchKeysVector ls
              (initWithTouchPoints utils A prox ls base cont pid mptk pI n xs
                ys ts geo).mSampledInputSize
          else base.mSearchKeysVector) := rfl

/-- The alignment fold produces one entry per unit of fuel. -/
theorem alignFold_length
    (step : AlignPointContext → List (Int × ℚ) → List (Int × ℚ))
    (ctx : Nat → AlignPointContext) (fuel i : Nat) (prev : List (Int × ℚ)) :
    (alignFold step ctx i fuel prev).length = fuel := by
  induction fuel generalizing i prev with
  | zero => rfl
  | succ f ih => simp [alignFold, ih]

/-- The alignment fold only depends on the context of the indices it visits. -/
theorem alignFold_congr
    (step : AlignPointContext → List (Int × ℚ) → List (Int × ℚ))
    (ctx1 ctx2 : Nat → AlignPointContext) (fuel i : Nat)
    (prev : List (Int × ℚ))
    (h : ∀ j, i ≤ j → j < i + fuel → ctx1 j = ctx2 j) :
    alignFold step ctx1 i fuel prev = alignFold step ctx2 i fuel prev := by
  induction fuel generalizing i prev with
  | zero => rfl
  | succ f ih =>
    unfold alignFold
    rw [h i (le_refl i) (by omega)]
    rw [ih (i + 1) _ (fun j h1 h2 => h j (by omega) (by omega))]

/-- Splitting the alignment fold: the second leg resumes from the last entry
of the first leg. -/
theorem alignFold_split
    (step : AlignPointContext → List (Int × ℚ) → List (Int × ℚ))
    (ctx : Nat → AlignPointContext) (l m i : Nat) (prev : List (Int × ℚ)) :
    alignFold step ctx i (l + m) prev
      = alignFold step ctx i l prev
        ++ alignFold step ctx (i + l) m
            ((alignFold step ctx i l prev).getLastD prev) := by
  induction l generalizing i prev with
  | zero => simp [alignFold]
  | succ l ih =>
    have e1 : alignFold step ctx i (l + 1 + m) prev
        = step (ctx i) prev
            :: alignFold step ctx (i + 1) (l + m) (step (ctx i) prev) := by
      rw [show l + 1 + m = (l + m) + 1 from by omega]
      rfl
    have e2 : alignFold step ctx i (l + 1) prev
        = step (ctx i) prev
            :: alignFold step ctx (i + 1) l (step (ctx i) prev) := rfl
    rw [e1, e2, ih (i + 1) (step (ctx i) prev), List.getLastD_cons]
    rw [show i + 1 + l = i + (l + 1) from by omega]
    simp [List.cons_append]

/-- Taking a prefix of the alignment fold is the fold with less fuel. -/
theorem alignFold_take
    (step : AlignPointContext → List (Int × ℚ) → List (Int × ℚ))
    (ctx : Nat → AlignPointContext) (l m i : Nat) (prev : List (Int × ℚ)) :
    (alignFold step ctx i (l + m) prev).take l = alignFold step ctx i l prev := by
  rw [alignFold_split step ctx l m i prev]
  exact List.take_left' (alignFold_length step ctx l i prev)

/-- Resuming the alignment-probability model from a from-scratch computation
whose visited contexts agree on the kept prefix yields the from-scratch
result. -/
theorem updateAlign_continuation
    (step : AlignPointContext → List (Int × ℚ) → List (Int × ℚ))
    (ctx1 ctx : Nat → AlignPointContext) (lastSaved size1 size : Nat)
    (hls1 : lastSaved ≤ size1) (hls : lastSaved ≤ size)
    (hctx : ∀ i < lastSaved, ctx1 i = ctx i) :
    updateAlignPointProbabilities step lastSaved size ctx
        (updateAlignPointProbabilities step 0 size1 ctx1 [])
      = updateAlignPointProbabilities step 0 size ctx [] := by
  unfold updateAlignPointProbabilities
  simp only [List.take_zero, List.getLastD_nil, List.nil_append, Nat.sub_zero]
  have htake : (alignFold step ctx1 0 size1 []).take lastSaved
      = alignFold step ctx 0 lastSaved [] := by
    have h : size1 = lastSaved + (size1 - lastSaved) := by omega
    rw [h, alignFold_take]
    exact alignFold_congr step ctx1 ctx lastSaved 0 []
      (fun j h1 h2 => hctx j (by omega))
  rw [htake]
  have hsplit : alignFold step ctx 0 size []
      = alignFold step ctx 0 lastSaved []
        ++ alignFold step ctx (0 + lastSaved) (size - lastSaved)
            ((alignFold step ctx 0 lastSaved []).getLastD []) := by
    have h : size = lastSaved + (size - lastSaved) := by omega
    rw [h]
    rw [show lastSaved + (size - lastSaved) - lastSaved = size - lastSaved
      from by omega]
    exact alignFold_split step ctx lastSaved (size - lastSaved) 0 []
  rw [hsplit, Nat.zero_add]

/-- Flat index bound for a row-major dense cache. -/
theorem flatIdx_lt (i k s kc : Nat) (hi : i < s) (hk : k < kc) :
    i * kc + k < s * kc := by
  calc i * kc + k < i * kc + kc := by omega
  _ = (i + 1) * kc := by ring
  _ ≤ s * kc := Nat.mul_le_mul_right _ (by omega)

/-- Row recovery from a flat index. -/
theorem flatIdx_div (i k kc : Nat) (hk : k < kc) : (i * kc + k) / kc = i := by
  rw [Nat.mul_comm i kc, Nat.mul_add_div (by omega), Nat.div_eq_of_lt hk]
  omega

/-- Column recovery from a flat index. -/
theorem flatIdx_mod (i k kc : Nat) (hk : k < kc) : (i * kc + k) % kc = k := by
  rw [Nat.mul_comm i kc, Nat.mul_add_mod, Nat.mod_eq_of_lt hk]

/-- Reading a from-scratch distance cache. -/
theorem buildDistanceCache_fresh_getD (pI : ProximityInfo) (size : Nat)
    (xs ys : List Int) (idx : Nat) (h : idx < size * pI.keyCount) :
    (buildDistanceCache [] pI pI.keyCount 0 size xs ys).getD idx 0
      = pI.getNormalizedSquaredDistanceFromCenterFloatG (idx % pI.keyCount)
          (xs.getD (idx / pI.keyCount) 0) (ys.getD (idx / pI.keyCount) 0) := by
  unfold buildDistanceCache
  rw [getD_range_map _ _ _ _ h]
  rw [if_neg (by omega)]

/-- Reading a from-scratch near-key vector. -/
theorem buildNearKeysVector_fresh_getD (pI : ProximityInfo) (size : Nat)
    (xs ys : List Int) (i : Nat) (h : i < size) :
    (buildNearKeysVector [] pI pI.keyCount 0 size xs ys).getD i ∅
      = (Finset.range pI.keyCount).filter
          (fun k => pI.getNormalizedSquaredDistanceFromCenterFloatG k
            (xs.getD i 0) (ys.getD i 0) < NEAR_KEY_NORMALIZED_SQUARED_THRESHOLD) := by
  unfold buildNearKeysVector
  rw [getD_range_map _ _ _ _ h]
  rw [if_neg (Nat.not_lt_zero i)]

/-- Rebuilding the distance cache on top of a from-scratch cache whose
coordinates agree on the retained prefix equals the from-scratch cache of the
new coordinates. -/
theorem buildDistanceCache_continuation (pI : ProximityInfo)
    (lastSaved size1 size : Nat) (A1xs A1ys Axs Ays : List Int)
    (hls1 : lastSaved ≤ size1)
    (hprex : ∀ i < lastSaved, Axs.getD i 0 = A1xs.getD i 0)
    (hprey : ∀ i < lastSaved, Ays.getD i 0 = A1ys.getD i 0) :
    buildDistanceCache (buildDistanceCache [] pI pI.keyCount 0 size1 A1xs A1ys)
        pI pI.keyCount lastSaved size Axs Ays
      = buildDistanceCache [] pI pI.keyCount 0 size Axs Ays := by
  unfold buildDistanceCache
  apply List.map_congr_left
  intro idx hidx
  rw [List.mem_range] at hidx
  by_cases hl : idx < lastSaved * pI.keyCount
  · rw [if_pos hl, if_neg (by omega)]
    rw [getD_range_map _ _ _ _ (lt_of_lt_of_le hl (Nat.mul_le_mul_right _ hls1))]
    rw [if_neg (by omega)]
    have hdivlt : idx / pI.keyCount < lastSaved :=
      Nat.div_lt_of_lt_mul (by rw [Nat.mul_comm]; exact hl)
    rw [hprex _ hdivlt, hprey _ hdivlt]
  · rw [if_neg hl, if_neg (by omega)]

/-- Rebuilding the near-key sets on top of a from-scratch vector whose
coordinates agree on the retained prefix equals the from-scratch vector of
the new coordinates. -/
theorem buildNearKeysVector_continuation (pI : ProximityInfo)
    (lastSaved size1 size : Nat) (A1xs A1ys Axs Ays : List Int)
    (hls1 : lastSaved ≤ size1)
    (hprex : ∀ i < lastSaved, Axs.getD i 0 = A1xs.getD i 0)
    (hprey : ∀ i < lastSaved, Ays.getD i 0 = A1ys.getD i 0) :
    buildNearKeysVector (buildNearKeysVector [] pI pI.keyCount 0 size1 A1xs A1ys)
        pI pI.keyCount lastSaved size Axs Ays
      = buildNearKeysVector [] pI pI.keyCount 0 size Axs Ays := by
  unfold buildNearKeysVector
  apply List.map_congr_left
  intro i hi
  rw [List.mem_range] at hi
  by_cases hl : i < lastSaved
  · rw [if_pos hl, if_neg (Nat.not_lt_zero i)]
    rw [getD_range_map _ _ _ _ (lt_of_lt_of_le hl hls1)]
    rw [if_neg (Nat.not_lt_zero i)]
    rw [hprex _ hl, hprey _ hl]
  · rw [if_neg hl, if_neg (Nat.not_lt_zero i)]

/-- Membership in the bounded forward scan: `x` is contributed by some scanned
position `m` such that every position up to `m` (inclusive) passes the
look-ahead bound. -/
theorem mem_scanUnion (x : ℕ) (lcI bound : Int)
    (pairs : List (Int × Finset ℕ)) :
    x ∈ scanUnion lcI bound pairs ↔
      ∃ m < pairs.length,
        (∀ m2 ≤ m, (pairs.getD m2 (0, ∅)).1 - lcI < bound) ∧
          x ∈ (pairs.getD m (0, ∅)).2 := by
  induction pairs with
  | nil => simp [scanUnion]
  | cons p rest ih =>
    unfold scanUnion
    by_cases hb : p.1 - lcI ≥ bound
    · rw [if_pos hb]
      simp only [Finset.not_mem_empty, false_iff, not_exists]
      intro m
      rintro ⟨hm, hpass, hx⟩
      have h0 := hpass 0 (Nat.zero_le m)
      rw [List.getD_cons_zero] at h0
      omega
    · rw [if_neg hb]
      rw [Finset.mem_union, ih]
      constructor
      · rintro (hx | ⟨m, hm, hpass, hx⟩)
        · refine ⟨0, by simp, ?_, by simpa using hx⟩
          intro m2 hm2
          have hm0 : m2 = 0 := by omega
          rw [hm0, List.getD_cons_zero]
          omega
        · refine ⟨m + 1, by simp; omega, ?_, by simpa [List.getD_cons_succ] using hx⟩
          intro m2 hm2
          cases m2 with
          | zero =>
            rw [List.getD_cons_zero]
            omega
          | succ m2' =>
            rw [List.getD_cons_succ]
            exact hpass m2' (by omega)
      · rintro ⟨m, hm, hpass, hx⟩
        cases m with
        | zero =>
          left
          simpa using hx
        | succ m' =>
          right
          refine ⟨m', by simpa using hm, ?_, by simpa [List.getD_cons_succ] using hx⟩
          intro m2 hm2
          have := hpass (m2 + 1) (by omega)
          rw [List.getD_cons_succ] at this
          exact this

/-- A search-key row at a recomputed index (at or past the reused prefix) does
not depend on the retained search sets. -/
theorem buildSearchKeysVector_tail_eq (searchOld : List (Finset ℕ))
    (near : List (Finset ℕ)) (lc : List Int) (lastSaved size : Nat)
    (bound : Int) (i : Nat) (hi : lastSaved ≤ i) :
    (buildSearchKeysVector (buildSearchMid searchOld lastSaved size) near lc
        lastSaved size bound).getD i ∅
      = (buildSearchKeysVector (buildSearchMid [] 0 size) near lc 0 size
          bound).getD i ∅ := by
  by_cases hsz : i < size
  · unfold buildSearchKeysVector
    rw [getD_range_map _ _ _ _ hsz, getD_range_map _ _ _ _ hsz]
    rw [if_pos hi, if_pos (Nat.zero_le i)]
    rw [Nat.max_eq_left hi, Nat.max_eq_left (Nat.zero_le i)]
  · unfold buildSearchKeysVector
    rw [getD_range_map_oob _ _ _ _ (by omega), getD_range_map_oob _ _ _ _ (by omega)]

/-- The fresh search-key row of a retained index is contained in the
incremental row: every contribution comes either from a point of the retained
prefix — already present in the retained search set computed by the first
call — or from a recomputed point, which the incremental OR-loop also scans. -/
theorem buildSearchKeysVector_superset (pI : ProximityInfo)
    (search1 near1 near : List (Finset ℕ)) (lc1 lc : List Int)
    (lastSaved size1 size : Nat) (bound : Int) (i : Nat)
    (hils : i < lastSaved) (hls1 : lastSaved ≤ size1) (hls : lastSaved ≤ size)
    (hsearch1 : search1 = buildSearchKeysVector (buildSearchMid [] 0 size1)
      near1 lc1 0 size1 bound)
    (hprelc : ∀ j < lastSaved, lc.getD j 0 = lc1.getD j 0)
    (hprenear : ∀ j < lastSaved, near.getD j ∅ = near1.getD j ∅) :
    (buildSearchKeysVector (buildSearchMid [] 0 size) near lc 0 size
        bound).getD i ∅
      ⊆ (buildSearchKeysVector (buildSearchMid search1 lastSaved size) near lc
          lastSaved size bound).getD i ∅ := by
  intro x hx
  have hisz : i < size := by omega
  unfold buildSearchKeysVector at hx
  rw [getD_range_map _ _ _ _ hisz] at hx
  rw [if_pos (Nat.zero_le i), Nat.max_eq_left (Nat.zero_le i)] at hx
  rw [Finset.mem_union] at hx
  rcases hx with hx | hx
  · exact absurd hx (Finset.not_mem_empty x)
  rw [mem_scanUnion] at hx
  obtain ⟨m, hm, hpass, hxm⟩ := hx
  rw [List.length_map, List.length_range'] at hm
  rw [getD_range'_map _ _ _ _ _ hm] at hxm
  have hpass' : ∀ m2 ≤ m, lc.getD (i + m2) 0 - lc.getD i 0 < bound := by
    intro m2 hm2
    have := hpass m2 hm2
    rw [getD_range'_map _ _ _ _ _ (by omega)] at this
    exact this
  unfold buildSearchKeysVector
  rw [getD_range_map _ _ _ _ hisz]
  rw [if_neg (by omega), Nat.max_eq_right (le_of_lt hils)]
  unfold buildSearchMid
  rw [getD_range_map _ _ _ _ hisz, if_pos hils]
  rw [Finset.mem_union]
  by_cases hj : i + m < lastSaved
  · -- contributed by a retained point: it is in the first call's row
    left
    rw [hsearch1]
    unfold buildSearchKeysVector
    rw [getD_range_map _ _ _ _ (by omega)]
    rw [if_pos (Nat.zero_le i), Nat.max_eq_left (Nat.zero_le i)]
    rw [Finset.mem_union]
    right
    rw [mem_scanUnion]
    refine ⟨m, ?_, ?_, ?_⟩
    · rw [List.length_map, List.length_range']
      omega
    · intro m2 hm2
      rw [getD_range'_map _ _ _ _ _ (by omega)]
      have h1 := hpass' m2 hm2
      rw [hprelc (i + m2) (by omega), hprelc i (by omega)] at h1
      exact h1
    · rw [getD_range'_map _ _ _ _ _ (by omega)]
      rw [← hprenear (i + m) (by omega)]
      exact hxm
  · -- contributed by a recomputed point: the incremental scan reaches it
    right
    rw [mem_scanUnion]
    refine ⟨i + m - lastSaved, ?_, ?_, ?_⟩
    · rw [List.length_map, List.length_range']
      omega
    · intro m2 hm2
      rw [getD_range'_map _ _ _ _ _ (by omega)]
      have h1 := hpass' (lastSaved + m2 - i) (by omega)
      rw [show i + (lastSaved + m2 - i) = lastSaved + m2 from by omega] at h1
      exact h1
    · rw [getD_range'_map _ _ _ _ _ (by omega)]
      rw [show lastSaved + (i + m - lastSaved) = i + m from by omega]
      exact hxm

/-- The alignment contexts of the retained prefix agree between the first
call's data and the fresh full-stream data. -/
theorem alignCtx_prefix_eq (mptk : ℚ) (mckw : Int) (pI : ProximityInfo)
    (A1xs A1ys A1lc Axs Ays Alc : List Int) (speed1 speed : List ℚ)
    (size1 size lastSaved : Nat)
    (hls1 : lastSaved ≤ size1) (hls : lastSaved ≤ size)
    (hx : ∀ i < lastSaved, Axs.getD i 0 = A1xs.getD i 0)
    (hy : ∀ i < lastSaved, Ays.getD i 0 = A1ys.getD i 0)
    (hlc : ∀ i < lastSaved, Alc.getD i 0 = A1lc.getD i 0)
    (hsp : ∀ i < lastSaved, speed.getD i 0 = speed1.getD i 0) :
    ∀ i < lastSaved,
      alignCtx mptk mckw pI.keyCount A1xs A1ys A1lc speed1
        (buildDistanceCache [] pI pI.keyCount 0 size1 A1xs A1ys)
        (buildNearKeysVector [] pI pI.keyCount 0 size1 A1xs A1ys) i
      = alignCtx mptk mckw pI.keyCount Axs Ays Alc speed
        (buildDistanceCache [] pI pI.keyCount 0 size Axs Ays)
        (buildNearKeysVector [] pI pI.keyCount 0 size Axs Ays) i := by
  intro i hi
  unfold alignCtx
  simp only [AlignPointContext.mk.injEq, true_and]
  refine ⟨(hx i hi).symm, (hy i hi).symm, (hsp i hi).symm,
    (hlc i hi).symm, ?_, ?_⟩
  · apply List.map_congr_left
    intro k hk
    rw [List.mem_range] at hk
    rw [buildDistanceCache_fresh_getD pI size1 A1xs A1ys _
      (flatIdx_lt i k size1 pI.keyCount (by omega) hk)]
    rw [buildDistanceCache_fresh_getD pI size Axs Ays _
      (flatIdx_lt i k size pI.keyCount (by omega) hk)]
    rw [flatIdx_div i k pI.keyCount hk, flatIdx_mod i k pI.keyCount hk]
    rw [hx i hi, hy i hi]
  · rw [buildNearKeysVector_fresh_getD pI size1 A1xs A1ys i (by omega)]
    rw [buildNearKeysVector_fresh_getD pI size Axs Ays i (by omega)]
    simp only [hx i hi, hy i hi]

/-- C1, amended: continuation equivalence for a gesture split across two
`initInputParams` calls.  Assuming the replay check passes, the resampler and
kinematic black boxes behave consistently (the incremental call reproduces the
fresh call's parallel arrays and speed rates, and the retained prefix of the
first call matches the fresh run), the incremental state's distance cache,
near-key sets and per-point probability distributions equal the fresh run's;
the search-key sets are equal at every recomputed index (at or past the reused
prefix length) and, at retained indices, *contain* the fresh run's sets — the
OR-only update never removes the stale contributions of the two popped
points. -/
theorem initInputParams_continuation_equivalence_amended
    (utils : StateUtils) (pI : ProximityInfo) (pointerId : Int) (mptk : ℚ)
    (inputCodes1 inputCodes2 : List Int) (inputSize1 inputSize2 : Nat)
    (xs1 ys1 ts1 pIds1 xs2 ys2 ts2 pIds2 : List Int)
    (st1 st2 stF : PIState) (lastSaved : Nat)
    (hst1 : st1 = PIState.empty.initInputParams utils pointerId mptk pI
      inputCodes1 inputSize1 xs1 ys1 ts1 pIds1 true)
    (hst2 : st2 = st1.initInputParams utils pointerId mptk pI inputCodes2
      inputSize2 xs2 ys2 ts2 pIds2 true)
    (hstF : stF = PIState.empty.initInputParams utils pointerId mptk pI
      inputCodes2 inputSize2 xs2 ys2 ts2 pIds2 true)
    (hlast : lastSaved = st1.mSampledInputXs.length - 2)
    (hreplay : st1.checkAndReturnIsContinuationPossible inputSize2 xs2 ys2 ts2
      true = true)
    (hmulti : 1 < st1.mInputIndice.length)
    (hszF : 0 < stF.mSampledInputSize)
    (hlssz : lastSaved ≤ stF.mSampledInputSize)
    (hxs : st2.mSampledInputXs = stF.mSampledInputXs)
    (hys : st2.mSampledInputYs = stF.mSampledInputYs)
    (hts : st2.mTimes = stF.mTimes)
    (hlc : st2.mLengthCache = stF.mLengthCache)
    (hii : st2.mInputIndice = stF.mInputIndice)
    (hpre : ∀ i < lastSaved,
      stF.mSampledInputXs.getD i 0 = st1.mSampledInputXs.getD i 0 ∧
      stF.mSampledInputYs.getD i 0 = st1.mSampledInputYs.getD i 0 ∧
      stF.mLengthCache.getD i 0 = st1.mLengthCache.getD i 0)
    (hspeedEq : st2.mSpeedRates = stF.mSpeedRates)
    (hspeedPre : ∀ i < lastSaved,
      stF.mSpeedRates.getD i 0 = st1.mSpeedRates.getD i 0) :
    st2.mDistanceCache_G = stF.mDistanceCache_G ∧
    st2.mNearKeysVector = stF.mNearKeysVector ∧
    st2.mCharProbabilities = stF.mCharProbabilities ∧
    (∀ i, lastSaved ≤ i →
      st2.mSearchKeysVector.getD i ∅ = stF.mSearchKeysVector.getD i ∅) ∧
    (∀ i, stF.mSearchKeysVector.getD i ∅ ⊆ st2.mSearchKeysVector.getD i ∅) := by
  simp only [PIState.initInputParams] at hst1 hst2 hstF
  rw [if_pos ⟨hreplay, hmulti⟩] at hst2
  rw [if_neg (by simp [PIState.empty])] at hst1
  rw [if_neg (by simp [PIState.empty])] at hstF
  simp only [initAfterBranch, Bool.true_eq_false, false_and, if_false] at hst1 hst2 hstF
  rw [show (st1.popInputData.popInputData).mSampledInputXs.length = lastSaved
    from by simp [PIState.popInputData]; omega] at hst2
  -- sizes as lengths of the resampled arrays
  have hsz2xs : st2.mSampledInputSize = st2.mSampledInputXs.length := by
    rw [hst2]
    rfl
  have hszFxs : stF.mSampledInputSize = stF.mSampledInputXs.length := by
    rw [hstF]
    rfl
  have hsz1xs : st1.mSampledInputSize = st1.mSampledInputXs.length := by
    rw [hst1]
    rfl
  have hsz2F : st2.mSampledInputSize = stF.mSampledInputSize := by
    rw [hsz2xs, hszFxs, hxs]
  have hsz2pos : 0 < st2.mSampledInputSize := by rw [hsz2F]; exact hszF
  have hls1size : lastSaved ≤ st1.mSampledInputSize := by
    rw [hsz1xs]
    omega
  -- the distance caches in build form
  have hd2 : st2.mDistanceCache_G
      = buildDistanceCache st1.mDistanceCache_G pI pI.keyCount lastSaved
          st2.mSampledInputSize st2.mSampledInputXs st2.mSampledInputYs := by
    have hp := hsz2pos
    rw [hst2] at hp ⊢
    rw [iwtp_dist, if_pos hp]
    rfl
  have hdF : stF.mDistanceCache_G
      = buildDistanceCache [] pI pI.keyCount 0 stF.mSampledInputSize
          stF.mSampledInputXs stF.mSampledInputYs := by
    have hp := hszF
    rw [hstF] at hp ⊢
    rw [iwtp_dist, if_pos hp]
    rfl
  have hd1 : st1.mDistanceCache_G
      = buildDistanceCache [] pI pI.keyCount 0 st1.mSampledInputSize
          st1.mSampledInputXs st1.mSampledInputYs := by
    by_cases h1 : 0 < st1.mSampledInputSize
    · rw [hst1] at h1 ⊢
      rw [iwtp_dist, if_pos h1]
      rfl
    · have h0 : st1.mSampledInputSize = 0 := by omega
      rw [h0]
      have hR : buildDistanceCache [] pI pI.keyCount 0 0 st1.mSampledInputXs
          st1.mSampledInputYs = [] := by simp [buildDistanceCache]
      rw [hR]
      rw [hst1] at h1 ⊢
      rw [iwtp_dist, if_neg h1]
      rfl
  -- the near-key vectors in build form
  have hn2 : st2.mNearKeysVector
      = buildNearKeysVector st1.mNearKeysVector pI pI.keyCount lastSaved
          st2.mSampledInputSize st2.mSampledInputXs st2.mSampledInputYs := by
    have hp := hsz2pos
    rw [hst2] at hp ⊢
    rw [iwtp_near, if_pos hp]
    rfl
  have hnF : stF.mNearKeysVector
      = buildNearKeysVector [] pI pI.keyCount 0 stF.mSampledInputSize
          stF.mSampledInputXs stF.mSampledInputYs := by
    have hp := hszF
    rw [hstF] at hp ⊢
    rw [iwtp_near, if_pos hp]
    rfl
  have hn1 : st1.mNearKeysVector
      = buildNearKeysVector [] pI pI.keyCount 0 st1.mSampledInputSize
          st1.mSampledInputXs st1.mSampledInputYs := by
    by_cases h1 : 0 < st1.mSampledInputSize
    · rw [hst1] at h1 ⊢
      rw [iwtp_near, if_pos h1]
      rfl
    · have h0 : st1.mSampledInputSize = 0 := by omega
      rw [h0]
      have hR : buildNearKeysVector [] pI pI.keyCount 0 0 st1.mSampledInputXs
          st1.mSampledInputYs = [] := by simp [buildNearKeysVector]
      rw [hR]
      rw [hst1] at h1 ⊢
      rw [iwtp_near, if_neg h1]
      rfl
  -- the distance caches agree
  have hdeq : st2.mDistanceCache_G = stF.mDistanceCache_G := by
    rw [hd2, hdF, hd1, hxs, hys, hsz2F]
    exact buildDistanceCache_continuation pI lastSaved st1.mSampledInputSize
      stF.mSampledInputSize st1.mSampledInputXs st1.mSampledInputYs
      stF.mSampledInputXs stF.mSampledInputYs hls1size
      (fun i hi => (hpre i hi).1) (fun i hi => (hpre i hi).2.1)
  -- the near-key vectors agree
  have hneq : st2.mNearKeysVector = stF.mNearKeysVector := by
    rw [hn2, hnF, hn1, hxs, hys, hsz2F]
    exact buildNearKeysVector_continuation pI lastSaved st1.mSampledInputSize
      stF.mSampledInputSize st1.mSampledInputXs st1.mSampledInputYs
      stF.mSampledInputXs stF.mSampledInputYs hls1size
      (fun i hi => (hpre i hi).1) (fun i hi => (hpre i hi).2.1)
  -- the probability distributions in update form
  have hcp2 : st2.mCharProbabilities
      = updateAlignPointProbabilities utils.alignStep lastSaved
          st2.mSampledInputSize
          (alignCtx mptk pI.getMostCommonKeyWidth pI.keyCount
            st2.mSampledInputXs st2.mSampledInputYs st2.mLengthCache
            st2.mSpeedRates st2.mDistanceCache_G st2.mNearKeysVector)
          st1.mCharProbabilities := by
    have hp := hsz2pos
    rw [hst2] at hp ⊢
    rw [iwtp_charProbs, if_pos (by
      simp only [Bool.and_true, decide_eq_true_eq]; exact hp)]
    rfl
  have hcpF : stF.mCharProbabilities
      = updateAlignPointProbabilities utils.alignStep 0 stF.mSampledInputSize
          (alignCtx mptk pI.getMostCommonKeyWidth pI.keyCount
            stF.mSampledInputXs stF.mSampledInputYs stF.mLengthCache
            stF.mSpeedRates stF.mDistanceCache_G stF.mNearKeysVector)
          [] := by
    have hp := hszF
    rw [hstF] at hp ⊢
    rw [iwtp_charProbs, if_pos (by
      simp only [Bool.and_true, decide_eq_true_eq]; exact hp)]
    rfl
  have hcp1 : st1.mCharProbabilities
      = updateAlignPointProbabilities utils.alignStep 0 st1.mSampledInputSize
          (alignCtx mptk pI.getMostCommonKeyWidth pI.keyCount
            st1.mSampledInputXs st1.mSampledInputYs st1.mLengthCache
            st1.mSpeedRates st1.mDistanceCache_G st1.mNearKeysVector)
          [] := by
    by_cases h1 : 0 < st1.mSampledInputSize
    · rw [hst1] at h1 ⊢
      rw [iwtp_charProbs, if_pos (by
        simp only [Bool.and_true, decide_eq_true_eq]; exact h1)]
      rfl
    · have h0 : st1.mSampledInputSize = 0 := by omega
      rw [h0]
      have hR : updateAlignPointProbabilities utils.alignStep 0 0
          (alignCtx mptk pI.getMostCommonKeyWidth pI.keyCount
            st1.mSampledInputXs st1.mSampledInputYs st1.mLengthCache
            st1.mSpeedRates st1.mDistanceCache_G st1.mNearKeysVector) []
          = [] := by simp [updateAlignPointProbabilities, alignFold]
      rw [hR]
      rw [hst1] at h1 ⊢
      rw [iwtp_charProbs, if_neg (by
        simp only [Bool.and_true, decide_eq_true_eq]; exact h1)]
      rfl
  -- the probability distributions agree
  have hcpeq : st2.mCharProbabilities = stF.mCharProbabilities := by
    rw [hcp2, hcpF, hcp1]
    rw [hxs, hys, hlc, hspeedEq, hsz2F, hdeq, hneq, hdF, hnF, hd1, hn1]
    exact updateAlign_continuation utils.alignStep _ _ lastSaved
      st1.mSampledInputSize stF.mSampledInputSize hls1size hlssz
      (alignCtx_prefix_eq mptk pI.getMostCommonKeyWidth pI
        st1.mSampledInputXs st1.mSampledInputYs st1.mLengthCache
        stF.mSampledInputXs stF.mSampledInputYs stF.mLengthCache
        st1.mSpeedRates stF.mSpeedRates st1.mSampledInputSize
        stF.mSampledInputSize lastSaved hls1size hlssz
        (fun i hi => (hpre i hi).1) (fun i hi => (hpre i hi).2.1)
        (fun i hi => (hpre i hi).2.2) hspeedPre)
  -- the search-key vectors in build form
  have hs2 : st2.mSearchKeysVector
      = buildSearchKeysVector
          (buildSearchMid st1.mSearchKeysVector lastSaved st2.mSampledInputSize)
          st2.mNearKeysVector st2.mLengthCache lastSaved st2.mSampledInputSize
          (readForwordLength (utils.hypotf pI.getKeyboardWidth
            pI.getKeyboardHeight)) := by
    have hp := hsz2pos
    rw [hst2] at hp ⊢
    rw [iwtp_search, if_pos (by
      simp only [Bool.and_true, decide_eq_true_eq]; exact hp), if_pos hp]
    rfl
  have hsF : stF.mSearchKeysVector
      = buildSearchKeysVector (buildSearchMid [] 0 stF.mSampledInputSize)
          stF.mNearKeysVector stF.mLengthCache 0 stF.mSampledInputSize
          (readForwordLength (utils.hypotf pI.getKeyboardWidth
            pI.getKeyboardHeight)) := by
    have hp := hszF
    rw [hstF] at hp ⊢
    rw [iwtp_search, if_pos (by
      simp only [Bool.and_true, decide_eq_true_eq]; exact hp), if_pos hp]
    rfl
  have hs1 : st1.mSearchKeysVector
      = buildSearchKeysVector (buildSearchMid [] 0 st1.mSampledInputSize)
          st1.mNearKeysVector st1.mLengthCache 0 st1.mSampledInputSize
          (readForwordLength (utils.hypotf pI.getKeyboardWidth
            pI.getKeyboardHeight)) := by
    by_cases h1 : 0 < st1.mSampledInputSize
    · rw [hst1] at h1 ⊢
      rw [iwtp_search, if_pos (by
        simp only [Bool.and_true, decide_eq_true_eq]; exact h1), if_pos h1]
      rfl
    · have h0 : st1.mSampledInputSize = 0 := by omega
      rw [h0]
      have hR : buildSearchKeysVector (buildSearchMid [] 0 0)
          st1.mNearKeysVector st1.mLengthCache 0 0
          (readForwordLength (utils.hypotf pI.getKeyboardWidth
            pI.getKeyboardHeight)) = [] := by
        simp [buildSearchKeysVector, buildSearchMid]
      rw [hR]
      rw [hst1] at h1 ⊢
      rw [iwtp_search, if_neg (by
        simp only [Bool.and_true, decide_eq_true_eq]; exact h1),
        if_neg h1]
      rfl
  -- near-key rows of the retained prefix agree between the first call and
  -- the fresh run
  have hprenear : ∀ j < lastSaved,
      stF.mNearKeysVector.getD j ∅ = st1.mNearKeysVector.getD j ∅ := by
    intro j hj
    rw [hnF, hn1]
    rw [buildNearKeysVector_fresh_getD pI stF.mSampledInputSize _ _ j (by omega)]
    rw [buildNearKeysVector_fresh_getD pI st1.mSampledInputSize _ _ j (by omega)]
    simp only [(hpre j hj).1, (hpre j hj).2.1]
  -- the recomputed search-key rows agree
  have hTail : ∀ i, lastSaved ≤ i →
      st2.mSearchKeysVector.getD i ∅ = stF.mSearchKeysVector.getD i ∅ := by
    intro i hi
    rw [hs2, hsF, hneq, hlc, hsz2F]
    exact buildSearchKeysVector_tail_eq st1.mSearchKeysVector
      stF.mNearKeysVector stF.mLengthCache lastSaved stF.mSampledInputSize _ i hi
  -- the fresh search-key rows are contained in the incremental ones
  have hSub : ∀ i,
      stF.mSearchKeysVector.getD i ∅ ⊆ st2.mSearchKeysVector.getD i ∅ := by
    intro i
    by_cases hils : i < lastSaved
    · rw [hs2, hsF, hneq, hlc, hsz2F]
      refine buildSearchKeysVector_superset pI st1.mSearchKeysVector
        st1.mNearKeysVector stF.mNearKeysVector st1.mLengthCache
        stF.mLengthCache lastSaved st1.mSampledInputSize stF.mSampledInputSize
        _ i hils hls1size hlssz hs1 (fun j hj => (hpre j hj).2.2) hprenear
    · rw [hTail i (by omega)]
  exact ⟨hdeq, hneq, hcpeq, hTail, hSub⟩

/-- Witness for the amended C1 theorem: the concrete continuation scenario.
The replay check passes with reused prefix length 1; the incremental call
reproduces the fresh run's distance cache, near-key sets and probability
distributions, the search-key rows agree at every recomputed index, and at
the retained index the incremental row contains the fresh one. -/
theorem initInputParams_continuation_equivalence_amended_witness :
    0 < stGestureFresh.mSampledInputSize ∧
    (stGesture2.mDistanceCache_G = stGestureFresh.mDistanceCache_G ∧
     stGesture2.mNearKeysVector = stGestureFresh.mNearKeysVector ∧
     stGesture2.mCharProbabilities = stGestureFresh.mCharProbabilities ∧
     (∀ i, 1 ≤ i →
       stGesture2.mSearchKeysVector.getD i ∅
         = stGestureFresh.mSearchKeysVector.getD i ∅) ∧
     (∀ i, stGestureFresh.mSearchKeysVector.getD i ∅
         ⊆ stGesture2.mSearchKeysVector.getD i ∅)) :=
  ⟨by decide,
    initInputParams_continuation_equivalence_amended utilsBoundary pInfoOneKey
      0 10 [] [] 3 4 [0, 1, 9] [0, 1, 9] [0, 1, 2] [0, 0, 0]
      [0, 1, 9, 3] [0, 1, 9, 3] [0, 1, 2, 3] [0, 0, 0, 0]
      stGesture1 stGesture2 stGestureFresh 1
      rfl rfl rfl (by decide) (by decide) (by decide) (by decide) (by decide)
      (by decide) (by decide) (by decide) (by decide) (by decide) (by decide)
      (by decide) (by decide)⟩

end latinime
